import Mathlib

/-!
# Verification of the VirtualLife ECS core against its specification

This file shallowly embeds the core of the `virtuallife` simulation engine
(boundary handlers, spatial grid, resource manager, ECS entity/system/world,
simulation runner) as executable Lean definitions and proves or refutes the
specification's claims about them.

Modelling conventions:
* Python `dict`s are embedded as insertion-ordered association lists
  (`List (κ × ν)`); assignment to an existing key keeps its slot, a new key is
  appended, matching CPython's ordered-dict semantics.
* Python `set`s are embedded as duplicate-free lists (`List α`) with
  membership-guarded insertion.
* `UUID` entity ids and component types are embedded as opaque `Nat` tags.
* Python `float` amounts are embedded as exact rationals `ℚ`; the claims under
  study concern control flow and store management, not rounding.
* Python `%` and `//` on integers (always-nonnegative remainder and floor
  division for positive divisors) are embedded as `Int.emod` / `Int.ediv`,
  which agree with them for positive divisors.
* Fallible operations (`KeyError`, `ValueError`, raising callbacks) are
  embedded with `Option` / `Except` results or explicit raised-flags.
-/

namespace VirtualLife

/-! ## Association-list maps (embedding of Python dict) -/

namespace AList

variable {κ ν : Type} [DecidableEq κ]

/-- First value bound to a key, like `d.get(k)` / `d[k]`. -/
def lookup (k : κ) : List (κ × ν) → Option ν
  | [] => none
  | (k', v) :: rest => if k' = k then some v else lookup k rest

/-- `d[k] = v`: replace the binding in place if the key exists, else append
(CPython dicts preserve insertion order and append new keys). -/
def insert (k : κ) (v : ν) : List (κ × ν) → List (κ × ν)
  | [] => [(k, v)]
  | (k', v') :: rest =>
    if k' = k then (k, v) :: rest else (k', v') :: insert k v rest

/-- `del d[k]` (identity when the key is absent). -/
def erase (k : κ) : List (κ × ν) → List (κ × ν)
  | [] => []
  | (k', v') :: rest =>
    if k' = k then rest else (k', v') :: erase k rest

/-- `k in d`. -/
def hasKey (k : κ) (l : List (κ × ν)) : Bool :=
  (lookup k l).isSome

end AList

/-! ## Python-set embedding: duplicate-free lists -/

namespace PySet

variable {α : Type} [DecidableEq α]

/-- `s.add(x)` (no duplicate membership). -/
def insert (x : α) (s : List α) : List α :=
  if x ∈ s then s else s ++ [x]

/-- `s.remove(x)` / `s.discard(x)` modelled as erasing the element. -/
def erase (x : α) (s : List α) : List α :=
  s.erase x

end PySet

/-! ## `virtuallife/environment/boundary.py` -/

/-- A 2D integer position, as in `virtuallife/types/core.py`. -/
abbrev Position := Int × Int

/-- The three boundary handler classes of `boundary.py`, each carrying the
grid `width` and `height` passed to `BoundaryHandler.__init__`. -/
inductive BoundaryHandler
  | wrapped (width height : Int)
  | bounded (width height : Int)
  | infinite (width height : Int)
  deriving DecidableEq, Repr

namespace BoundaryHandler

/-- `normalize_position` of the three concrete handlers.  Python `%` on `int`
with a positive modulus is the always-nonnegative remainder, which is
`Int.emod` (Lean's `%` on `Int`). -/
def normalize_position : BoundaryHandler → Position → Position
  | wrapped w h, (x, y) => (x % w, y % h)
  | bounded w h, (x, y) => (max 0 (min x (w - 1)), max 0 (min y (h - 1)))
  | infinite _ _, p => p

end BoundaryHandler

deriving instance DecidableEq for Except

/-- Model of Python `str.lower()`: lower-case every character (character-wise
`Char.toLower`, which is exact for the ASCII tags at issue here). -/
def pyLower (s : String) : String :=
  String.mk (s.data.map Char.toLower)

/-- `create_boundary_handler` for a string tag: Python lowercases the string
and looks it up among the `BoundaryCondition` enum values, raising
`ValueError` otherwise. -/
def create_boundary_handler (s : String) (width height : Int) :
    Except String BoundaryHandler :=
  let t := pyLower s
  if t = "wrapped" then .ok (.wrapped width height)
  else if t = "bounded" then .ok (.bounded width height)
  else if t = "infinite" then .ok (.infinite width height)
  else .error ("Invalid boundary condition: " ++ s)

/-! ## `virtuallife/environment/grid.py` -/

/-- Entity ids (`UUID` in the source) are opaque tags, embedded as `Nat`. -/
abbrev EntityId := Nat

/-- `SpatialGrid`: bucketed position index.  `_cells` maps a cell coordinate
to the set of entity ids in that bucket (`defaultdict(set)`), and
`_entity_positions` maps each tracked id to its stored (normalized at
insertion) position. -/
structure SpatialGrid where
  width : Int
  height : Int
  boundary_handler : BoundaryHandler
  cell_size : Int := 10
  _cells : List ((Int × Int) × List EntityId) := []
  _entity_positions : List (EntityId × Position) := []
  deriving DecidableEq, Repr

namespace SpatialGrid

/-- `position_to_cell`: Python `//` (floor division, = `Int.ediv` for the
positive `cell_size`). -/
def position_to_cell (g : SpatialGrid) (p : Position) : Int × Int :=
  (p.1 / g.cell_size, p.2 / g.cell_size)

/-- `self._cells[cell].add(entity_id)` on a `defaultdict(set)`: a missing
bucket is created empty, then the id is inserted. -/
def bucketAdd (cells : List ((Int × Int) × List EntityId))
    (cell : Int × Int) (id : EntityId) : List ((Int × Int) × List EntityId) :=
  let bucket := (AList.lookup cell cells).getD []
  AList.insert cell (PySet.insert id bucket) cells

/-- The bucket-removal step shared by `remove_entity` and
`update_entity_position`: if the bucket exists and holds the id, discard the
id and delete the bucket when it becomes empty. -/
def bucketDiscard (cells : List ((Int × Int) × List EntityId))
    (cell : Int × Int) (id : EntityId) : List ((Int × Int) × List EntityId) :=
  match AList.lookup cell cells with
  | none => cells
  | some bucket =>
    if id ∈ bucket then
      let bucket' := PySet.erase id bucket
      if bucket' = [] then AList.erase cell cells
      else AList.insert cell bucket' cells
    else cells

/-- `SpatialGrid.add_entity`: normalize, record the position, insert into the
bucket of the normalized position.  (Note: the source never removes the id
from a previously occupied bucket here.) -/
def add_entity (g : SpatialGrid) (id : EntityId) (position : Position) :
    SpatialGrid :=
  let pos := g.boundary_handler.normalize_position position
  let g := { g with _entity_positions := AList.insert id pos g._entity_positions }
  let cell := g.position_to_cell pos
  { g with _cells := bucketAdd g._cells cell id }

/-- `SpatialGrid.remove_entity`: no-op on unknown ids; uses the *supplied*
position verbatim (not normalized) when one is given, else the stored
position; removes the id from that cell's bucket and deletes the id from
`_entity_positions`. -/
def remove_entity (g : SpatialGrid) (id : EntityId)
    (position : Option Position := none) : SpatialGrid :=
  if (AList.lookup id g._entity_positions).isNone then g
  else
    let pos := match position with
      | some p => p
      | none => (AList.lookup id g._entity_positions).getD (0, 0)
    let cell := g.position_to_cell pos
    let cells := bucketDiscard g._cells cell id
    { g with _cells := cells,
             _entity_positions := AList.erase id g._entity_positions }

/-- `SpatialGrid.update_entity_position`. -/
def update_entity_position (g : SpatialGrid) (id : EntityId)
    (new_position : Position) : SpatialGrid :=
  match AList.lookup id g._entity_positions with
  | none => g.add_entity id new_position
  | some old_position =>
    let normalized := g.boundary_handler.normalize_position new_position
    if old_position = normalized then g
    else
      let old_cell := g.position_to_cell old_position
      let cells := bucketDiscard g._cells old_cell id
      let new_cell := g.position_to_cell normalized
      let cells := bucketAdd cells new_cell id
      { g with _cells := cells,
               _entity_positions := AList.insert id normalized g._entity_positions }

/-- `SpatialGrid.get_entity_position`. -/
def get_entity_position (g : SpatialGrid) (id : EntityId) : Option Position :=
  AList.lookup id g._entity_positions

/-- `SpatialGrid.get_entities_at_position`: scan the bucket of the normalized
query position and keep ids whose stored position matches exactly.  The scan
reads `self._entity_positions[entity_id]` with no guard; a missing key raises
`KeyError`, embedded as `none`. -/
def get_entities_at_position (g : SpatialGrid) (position : Position) :
    Option (List EntityId) :=
  let normalized := g.boundary_handler.normalize_position position
  let cell := g.position_to_cell normalized
  match AList.lookup cell g._cells with
  | none => some []
  | some bucket =>
    bucket.foldl (fun acc id =>
      match acc with
      | none => none
      | some r =>
        match AList.lookup id g._entity_positions with
        | none => none
        | some p => some (if p = normalized then r ++ [id] else r)) (some [])

/-- The cells whose bucket currently holds the id (diagnostic view used to
state bucket-membership uniqueness). -/
def cellsContaining (g : SpatialGrid) (id : EntityId) : List (Int × Int) :=
  (g._cells.filter (fun b => id ∈ b.2)).map Prod.fst

end SpatialGrid


/-! ## `virtuallife/environment/resources.py`

Amounts (`float` in the source) are embedded as exact rationals. -/

/-- `ResourceManager`: `_resources` maps a resource-type name to a map from
position to amount (`defaultdict(lambda: defaultdict(float))`). -/
structure ResourceManager where
  _resources : List (String × List (Position × ℚ)) := []
  deriving DecidableEq, Repr

namespace ResourceManager

/-- `add_resource`: `self._resources[rt][pos] += amount`; the defaultdicts
create missing entries with amount `0.0` first. -/
def add_resource (m : ResourceManager) (rt : String) (pos : Position)
    (amount : ℚ) : ResourceManager :=
  let inner := (AList.lookup rt m._resources).getD []
  let cur := (AList.lookup pos inner).getD 0
  ⟨AList.insert rt (AList.insert pos (cur + amount) inner) m._resources⟩

/-- `remove_resource`: delete the entry outright; drop the resource type when
its position map becomes empty. -/
def remove_resource (m : ResourceManager) (rt : String) (pos : Position) :
    ResourceManager :=
  match AList.lookup rt m._resources with
  | none => m
  | some inner =>
    if (AList.lookup pos inner).isSome then
      let inner' := AList.erase pos inner
      if inner' = [] then ⟨AList.erase rt m._resources⟩
      else ⟨AList.insert rt inner' m._resources⟩
    else m

/-- `get_resource_amount`: `0.0` when the type or position is absent. -/
def get_resource_amount (m : ResourceManager) (rt : String) (pos : Position) :
    ℚ :=
  match AList.lookup rt m._resources with
  | none => 0
  | some inner => (AList.lookup pos inner).getD 0

/-- `consume_resource`: returns the amount actually consumed together with the
updated store. -/
def consume_resource (m : ResourceManager) (rt : String) (pos : Position)
    (amount : ℚ) : ℚ × ResourceManager :=
  match AList.lookup rt m._resources with
  | none => (0, m)
  | some inner =>
    match AList.lookup pos inner with
    | none => (0, m)
    | some available =>
      let consumed := min available amount
      let remaining := available - consumed
      if remaining ≤ 0 then
        let inner' := AList.erase pos inner
        if inner' = [] then (consumed, ⟨AList.erase rt m._resources⟩)
        else (consumed, ⟨AList.insert rt inner' m._resources⟩)
      else (consumed, ⟨AList.insert rt (AList.insert pos remaining inner) m._resources⟩)

/-- `update_resource`: set the absolute amount; delegate to `remove_resource`
when it is ≤ 0. -/
def update_resource (m : ResourceManager) (rt : String) (pos : Position)
    (amount : ℚ) : ResourceManager :=
  if amount ≤ 0 then m.remove_resource rt pos
  else
    let inner := (AList.lookup rt m._resources).getD []
    ⟨AList.insert rt (AList.insert pos amount inner) m._resources⟩

/-- `transfer_resource`: consume at `from_position`, then add the consumed
amount at `to_position` when it is positive. -/
def transfer_resource (m : ResourceManager) (rt : String)
    (from_position to_position : Position) (amount : ℚ) :
    ℚ × ResourceManager :=
  let (consumed, m') := m.consume_resource rt from_position amount
  if 0 < consumed then (consumed, m'.add_resource rt to_position consumed)
  else (consumed, m')

/-- `get_all_resource_types`. -/
def get_all_resource_types (m : ResourceManager) : List String :=
  m._resources.map Prod.fst

/-- `get_total_resource_amount`. -/
def get_total_resource_amount (m : ResourceManager) (rt : String) : ℚ :=
  match AList.lookup rt m._resources with
  | none => 0
  | some inner => (inner.map Prod.snd).sum

/-- `clear`. -/
def clear (_m : ResourceManager) : ResourceManager := ⟨[]⟩

/-- `clear_resource_type`. -/
def clear_resource_type (m : ResourceManager) (rt : String) : ResourceManager :=
  ⟨AList.erase rt m._resources⟩

/-- The spec's store invariant: every stored entry has a positive amount and
no resource type maps to an empty position map. -/
def invariantHolds (m : ResourceManager) : Bool :=
  m._resources.all (fun tm => !tm.2.isEmpty && tm.2.all (fun pa => 0 < pa.2))

end ResourceManager

/-- The `ResourceManager` mutators, as an operation alphabet for
whole-history statements. -/
inductive ROp
  | add (rt : String) (pos : Position) (amount : ℚ)
  | remove (rt : String) (pos : Position)
  | consume (rt : String) (pos : Position) (amount : ℚ)
  | update (rt : String) (pos : Position) (amount : ℚ)
  | transfer (rt : String) (from_position to_position : Position) (amount : ℚ)
  | clear
  | clearType (rt : String)
  deriving DecidableEq, Repr

/-- Apply one operation (results of `consume`/`transfer` are discarded). -/
def ROp.apply (m : ResourceManager) : ROp → ResourceManager
  | .add rt pos amount => m.add_resource rt pos amount
  | .remove rt pos => m.remove_resource rt pos
  | .consume rt pos amount => (m.consume_resource rt pos amount).2
  | .update rt pos amount => m.update_resource rt pos amount
  | .transfer rt f t amount => (m.transfer_resource rt f t amount).2
  | .clear => m.clear
  | .clearType rt => m.clear_resource_type rt

/-- Run a sequence of operations from a starting store. -/
def ROp.applyAll (ops : List ROp) (m : ResourceManager) : ResourceManager :=
  ops.foldl ROp.apply m

/-- An operation is benign for the store invariant when, if it is an
`add_resource` call, its amount is positive (every other operation is
unrestricted). -/
def ROp.addPositive : ROp → Prop
  | .add _ _ amount => 0 < amount
  | _ => True

/-! ## `virtuallife/ecs/entity.py`, `system.py`, `world.py`

Component *types* are opaque `Nat` tags; for the structural claims (C1, C2)
only the key set of an entity's `_components` dict matters, so an entity
carries the insertion-ordered list of its component type tags. -/

/-- `ecs.entity.Entity` (id, position, component-type key set, dirty flag). -/
structure ECSEntity where
  id : EntityId
  position : Position := (0, 0)
  _components : List Nat := []
  _dirty : Bool := true
  deriving DecidableEq, Repr

namespace ECSEntity

/-- `Entity.has_component`. -/
def has_component (e : ECSEntity) (t : Nat) : Bool :=
  e._components.contains t

/-- `Entity.add_component`: raises `ValueError` on a duplicate type, else
inserts the tag and marks the entity dirty. -/
def add_component (e : ECSEntity) (t : Nat) : Except String ECSEntity :=
  if e._components.contains t then
    .error "Component of this type already exists on this entity"
  else .ok { e with _components := e._components ++ [t], _dirty := true }

/-- `Entity.remove_component`: no-op when absent, else delete and mark dirty. -/
def remove_component (e : ECSEntity) (t : Nat) : ECSEntity :=
  if e._components.contains t then
    { e with _components := e._components.erase t, _dirty := true }
  else e

end ECSEntity

/-- `ecs.system.System`: the abstract base's concrete state
(`entities`, `enabled`, `priority`) plus the subclass-fixed
`required_components`. -/
structure ECSSystem where
  required_components : List Nat
  entities : List EntityId := []
  enabled : Bool := true
  priority : Int := 0
  deriving DecidableEq, Repr

namespace ECSSystem

/-- `System.matches_entity`: enabled and the entity has every required
component type. -/
def matches_entity (s : ECSSystem) (e : ECSEntity) : Bool :=
  s.enabled && s.required_components.all (fun t => e.has_component t)

/-- `System.register_entity` (the `_on_entity_added` hook is a no-op). -/
def register_entity (s : ECSSystem) (e : ECSEntity) : ECSSystem :=
  if s.matches_entity e then
    { s with entities := PySet.insert e.id s.entities }
  else s

/-- `System.unregister_entity` (the `_on_entity_removed` hook is a no-op). -/
def unregister_entity (s : ECSSystem) (id : EntityId) : ECSSystem :=
  if id ∈ s.entities then { s with entities := PySet.erase id s.entities }
  else s

end ECSSystem

/-- `ecs.world.World` (the unused `_next_entity_id` counter is omitted). -/
structure World where
  entities : List (EntityId × ECSEntity) := []
  systems : List ECSSystem := []
  _entities_pending_add : List ECSEntity := []
  _entity_ids_pending_removal : List EntityId := []
  _is_processing : Bool := false
  _spatial_grid : Option SpatialGrid := none
  deriving DecidableEq, Repr

namespace World

/-- `World._add_entity_immediate`: insert into the entity table, mirror into
the spatial grid when attached, register with every system. -/
def _add_entity_immediate (w : World) (e : ECSEntity) : World :=
  { w with
    entities := AList.insert e.id e w.entities,
    _spatial_grid := w._spatial_grid.map (fun g => g.add_entity e.id e.position),
    systems := w.systems.map (fun s => s.register_entity e) }

/-- `World.add_entity`: defer while the tick's system pass is running. -/
def add_entity (w : World) (e : ECSEntity) : World :=
  if w._is_processing then
    { w with _entities_pending_add := w._entities_pending_add ++ [e] }
  else w._add_entity_immediate e

/-- `World._remove_entity_immediate`: no-op on unknown ids, else unregister
from the grid and every system and delete from the entity table. -/
def _remove_entity_immediate (w : World) (id : EntityId) : World :=
  if (AList.lookup id w.entities).isNone then w
  else
    { w with
      entities := AList.erase id w.entities,
      _spatial_grid := w._spatial_grid.map (fun g => g.remove_entity id none),
      systems := w.systems.map (fun s => s.unregister_entity id) }

/-- `World.remove_entity`: defer while the tick's system pass is running
(`_entity_ids_pending_removal` is a Python set). -/
def remove_entity (w : World) (id : EntityId) : World :=
  if w._is_processing then
    { w with _entity_ids_pending_removal :=
        PySet.insert id w._entity_ids_pending_removal }
  else w._remove_entity_immediate id

/-- `World.get_entity`. -/
def get_entity (w : World) (id : EntityId) : Option ECSEntity :=
  AList.lookup id w.entities

/-- `World.add_system`: register every live entity with the new system, then
append and re-sort by descending priority (Python's stable
`list.sort(key=priority, reverse=True)`; registration happens on the same
system object after the sort, so the two orders commute). -/
def add_system (w : World) (s : ECSSystem) : World :=
  let s := (w.entities.map Prod.snd).foldl ECSSystem.register_entity s
  { w with systems :=
      (w.systems ++ [s]).mergeSort (fun a b => decide (b.priority ≤ a.priority)) }

/-- `World._process_pending_entity_changes`: apply every queued add, clear the
add buffer, apply every queued removal, clear the removal buffer. -/
def _process_pending_entity_changes (w : World) : World :=
  let w1 := w._entities_pending_add.foldl World._add_entity_immediate w
  let w2 := { w1 with _entities_pending_add := [] }
  let w3 := w2._entity_ids_pending_removal.foldl World._remove_entity_immediate w2
  { w3 with _entity_ids_pending_removal := [] }

end World

/-- The world-mutating calls a system's `process` can make during the tick's
system pass.  `System.process` is abstract in the source, so `World.update`
is parameterized by the sequence of such calls the enabled systems perform. -/
inductive WorldAction
  | addE (e : ECSEntity)
  | removeE (id : EntityId)
  deriving DecidableEq, Repr

namespace WorldAction

/-- Dispatch one call against the world. -/
def applyTo (w : World) : WorldAction → World
  | .addE e => w.add_entity e
  | .removeE id => w.remove_entity id

/-- The entities queued by the add calls, in call order. -/
def queuedAdds (acts : List WorldAction) : List ECSEntity :=
  acts.filterMap (fun a => match a with | .addE e => some e | _ => none)

/-- The removal-id set accumulated by the remove calls. -/
def queuedRemovals (acts : List WorldAction) : List EntityId :=
  acts.foldl (fun s a => match a with
    | .removeE id => PySet.insert id s
    | _ => s) []

end WorldAction

namespace World

/-- The system pass of `World.update`: `_is_processing` is set and the
enabled systems' `process(self, dt)` calls run, abstracted as the world
mutations they issue. -/
def processingPass (w : World) (acts : List WorldAction) : World :=
  acts.foldl WorldAction.applyTo { w with _is_processing := true }

/-- `World.update(dt)`: system pass, clear the flag, reconcile pending
changes. -/
def update (w : World) (acts : List WorldAction) : World :=
  ({ w.processingPass acts with _is_processing := false
      })._process_pending_entity_changes

/-- A component attached to a *live* entity through the aliased `Entity`
object (`world.get_entity(id).add_component(c)` in Python mutates the object
stored in `World.entities` in place; nothing else in the world is touched,
and a `ValueError` on duplicate leaves the world unchanged). -/
def entityAddComponent (w : World) (id : EntityId) (t : Nat) : World :=
  match AList.lookup id w.entities with
  | none => w
  | some e =>
    match e.add_component t with
    | .ok e' => { w with entities := AList.insert id e' w.entities }
    | .error _ => w

/-- A component removed from a live entity through the aliased `Entity`
object; in-place mutation of the stored entity, nothing else touched. -/
def entityRemoveComponent (w : World) (id : EntityId) (t : Nat) : World :=
  match AList.lookup id w.entities with
  | none => w
  | some e =>
    { w with entities := AList.insert id (e.remove_component t) w.entities }

end World

/-! ## The two `Entity.update` loops

A component's `update(entity, world, dt)` is arbitrary code; it is abstracted
as a behaviour `beh : Nat → σ → σ × Bool` giving, per component tag, the
mutated shared state and whether the call raised.  The traces below record
which components' `update` methods were invoked, in order. -/

/-- `ecs/entity.py` `Entity.update`: a bare
`for component in self._components.values(): component.update(...)` loop with
*no* `try`/`except`.  Returns the final state, the tags whose `update` was
invoked, and whether an exception escaped the loop (aborting the remaining
siblings). -/
def ecsEntityUpdate {σ : Type} (beh : Nat → σ → σ × Bool) :
    List Nat → σ → σ × List Nat × Bool
  | [], s => (s, [], false)
  | c :: cs, s =>
    let r := beh c s
    if r.2 then (r.1, [c], true)
    else
      let rest := ecsEntityUpdate beh cs r.1
      (rest.1, c :: rest.2.1, rest.2.2)

/-- `simulation/entity.py` `Entity.update`: the same loop with a
`try`/`except Exception` around each component's `update` that logs and
continues, so every sibling is still invoked and nothing escapes. -/
def simEntityUpdate {σ : Type} (beh : Nat → σ → σ × Bool) :
    List Nat → σ → σ × List Nat
  | [], s => (s, [])
  | c :: cs, s =>
    let r := beh c s
    let rest := simEntityUpdate beh cs r.1
    (rest.1, c :: rest.2)

/-! ## `virtuallife/simulation/runner.py`

Listener callbacks and entity `update(environment)` calls are arbitrary code
receiving the runner / environment; they are abstracted as behaviours on the
environment's entity table, again with a raised-flag.  `step()` emits a trace
of the calls it makes. -/

/-- `SimulationRunner` state relevant to `step()`: the environment's entity
table (ids, insertion order) and the per-event listener lists. -/
structure SimulationRunner where
  envEntities : List EntityId := []
  current_step : Int := 0
  step_start_listeners : List Nat := []
  step_end_listeners : List Nat := []
  entity_added_listeners : List Nat := []
  entity_removed_listeners : List Nat := []
  deriving DecidableEq, Repr

/-- One observable call made during `step()`. -/
inductive REvent
  | listenerCall (event : String) (l : Nat) (raised : Bool)
  | entityUpdate (e : EntityId) (raised : Bool)
  deriving DecidableEq, Repr

/-- Which call an event was, forgetting whether it raised. -/
def REvent.sig : REvent → String × Nat
  | .listenerCall event l _ => (event, l)
  | .entityUpdate e _ => ("entity_update", e)

/-- `notify_listeners`: invoke every callback for the event in registration
order; each call sits in its own `try`/`except Exception` that logs and
continues, so a raising callback never prevents the remaining ones. -/
def notify_listeners (lbeh : Nat → List EntityId → List EntityId × Bool)
    (event : String) (callbacks : List Nat) (env : List EntityId) :
    List EntityId × List REvent :=
  callbacks.foldl (fun acc l =>
    let r := lbeh l acc.1
    (r.1, acc.2 ++ [.listenerCall event l r.2])) (env, [])

/-- `SimulationRunner.step`: fire `step_start`, increment `current_step`,
snapshot `list(self.environment.entities.values())`, update each snapshot
entity with a per-entity `try`/`except` that logs and continues, fire
`step_end`.  The whole body also sits in an outer `try`/`except Exception`,
so `step` is modelled as a total function: no exception escapes it. -/
def SimulationRunner.step (lbeh : Nat → List EntityId → List EntityId × Bool)
    (ebeh : EntityId → List EntityId → List EntityId × Bool)
    (r : SimulationRunner) : SimulationRunner × List REvent :=
  let start := notify_listeners lbeh "step_start" r.step_start_listeners r.envEntities
  let snapshot := start.1
  let upd := snapshot.foldl (fun acc e =>
    let u := ebeh e acc.1
    (u.1, acc.2 ++ [.entityUpdate e u.2])) (start.1, [])
  let stop := notify_listeners lbeh "step_end" r.step_end_listeners upd.1
  ({ r with envEntities := stop.1, current_step := r.current_step + 1 },
    start.2 ++ upd.2 ++ stop.2)

/-- A world holding one system that requires component type 1 and one live
registered entity (id 7) lacking it: the state Python reaches by
`World(); add_system(sys); add_entity(entity)`. -/
private def c2System : ECSSystem := { required_components := [1] }

private def c2Entity : ECSEntity := { id := 7 }

private def c2World : World :=
  World.add_entity { systems := [c2System] } c2Entity

/-- Concrete idle world for the C1 witness: one live entity (id 1, with
component 3) registered with one system requiring component 3, mirrored in a
wrapped 5×5 grid. -/
private def c1Entity1 : ECSEntity := { id := 1, position := (0, 0), _components := [3] }

private def c1Entity2 : ECSEntity := { id := 2, position := (1, 1), _components := [3] }

private def c1System : ECSSystem := { required_components := [3], entities := [1] }

private def c1Grid : SpatialGrid :=
  { width := 5, height := 5, boundary_handler := .wrapped 5 5,
    _cells := [((0, 0), [1])], _entity_positions := [(1, (0, 0))] }

private def c1World : World :=
  { entities := [(1, c1Entity1)], systems := [c1System],
    _spatial_grid := some c1Grid }

private def c1Acts : List WorldAction := [.addE c1Entity2, .removeE 1]

/-! ## Lemma library for the association-list and set embeddings -/

namespace AList

variable {κ ν : Type} [DecidableEq κ]

theorem lookup_insert_self (k : κ) (v : ν) (l : List (κ × ν)) :
    lookup k (insert k v l) = some v := by
  induction l with
  | nil => simp [insert, lookup]
  | cons hd tl ih =>
    obtain ⟨k', v'⟩ := hd
    by_cases h : k' = k
    · simp [insert, lookup, h]
    · simp [insert, lookup, h, ih]

theorem lookup_insert_ne (k k' : κ) (v : ν) (l : List (κ × ν)) (h : k ≠ k') :
    lookup k' (insert k v l) = lookup k' l := by
  induction l with
  | nil => simp [insert, lookup, h]
  | cons hd tl ih =>
    obtain ⟨k₀, v₀⟩ := hd
    by_cases h₀ : k₀ = k
    · subst h₀
      simp [insert, lookup, h]
    · simp only [insert, if_neg h₀]
      by_cases h₁ : k₀ = k'
      · simp [lookup, h₁]
      · simp [lookup, h₁, ih]

theorem lookup_eq_none_of_not_mem_keys (k : κ) (l : List (κ × ν))
    (h : k ∉ l.map Prod.fst) :
    lookup k l = none := by
  induction l with
  | nil => simp [lookup]
  | cons hd tl ih =>
    obtain ⟨k', v'⟩ := hd
    simp only [List.map_cons, List.mem_cons] at h
    push_neg at h
    have hne : ¬ k' = k := fun hh => h.1 hh.symm
    simp [lookup, hne, ih h.2]

theorem lookup_erase_self (k : κ) (l : List (κ × ν))
    (hnd : (l.map Prod.fst).Nodup) :
    lookup k (erase k l) = none := by
  induction l with
  | nil => simp [erase, lookup]
  | cons hd tl ih =>
    obtain ⟨k', v'⟩ := hd
    simp only [List.map_cons, List.nodup_cons] at hnd
    by_cases h : k' = k
    · subst h
      simpa [erase] using lookup_eq_none_of_not_mem_keys k' tl hnd.1
    · simp [erase, lookup, h, ih hnd.2]

theorem lookup_erase_ne (k k' : κ) (l : List (κ × ν)) (h : k ≠ k') :
    lookup k' (erase k l) = lookup k' l := by
  induction l with
  | nil => simp [erase]
  | cons hd tl ih =>
    obtain ⟨k₀, v₀⟩ := hd
    by_cases h₀ : k₀ = k
    · subst h₀
      simp [erase, lookup, h]
    · by_cases h₁ : k₀ = k'
      · simp [erase, lookup, h₀, h₁, Ne.symm h]
      · simp [erase, lookup, h₀, h₁, ih]

theorem mem_insert {k : κ} {v : ν} {l : List (κ × ν)} {x : κ × ν}
    (h : x ∈ insert k v l) : x = (k, v) ∨ x ∈ l := by
  induction l with
  | nil => simpa [insert] using h
  | cons hd tl ih =>
    obtain ⟨k', v'⟩ := hd
    by_cases h₀ : k' = k
    · simp only [insert, if_pos h₀, List.mem_cons] at h
      rcases h with h | h
      · exact Or.inl h
      · exact Or.inr (List.mem_cons_of_mem _ h)
    · simp only [insert, if_neg h₀, List.mem_cons] at h
      rcases h with h | h
      · exact Or.inr (h ▸ List.mem_cons_self _ _)
      · rcases ih h with h' | h'
        · exact Or.inl h'
        · exact Or.inr (List.mem_cons_of_mem _ h')

theorem mem_erase {k : κ} {l : List (κ × ν)} {x : κ × ν}
    (h : x ∈ erase k l) : x ∈ l := by
  induction l with
  | nil => simpa [erase] using h
  | cons hd tl ih =>
    obtain ⟨k', v'⟩ := hd
    by_cases h₀ : k' = k
    · simp only [erase, if_pos h₀] at h
      exact List.mem_cons_of_mem _ h
    · simp only [erase, if_neg h₀, List.mem_cons] at h
      rcases h with h | h
      · exact h ▸ List.mem_cons_self _ _
      · exact List.mem_cons_of_mem _ (ih h)

theorem insert_ne_nil (k : κ) (v : ν) (l : List (κ × ν)) :
    insert k v l ≠ [] := by
  cases l with
  | nil => simp [insert]
  | cons hd tl =>
    obtain ⟨k', v'⟩ := hd
    by_cases h : k' = k <;> simp [insert, h]

theorem keys_insert_nodup (k : κ) (v : ν) (l : List (κ × ν))
    (hnd : (l.map Prod.fst).Nodup) :
    ((insert k v l).map Prod.fst).Nodup := by
  induction l with
  | nil => simp [insert]
  | cons hd tl ih =>
    obtain ⟨k', v'⟩ := hd
    simp only [List.map_cons, List.nodup_cons] at hnd
    by_cases h : k' = k
    · subst h
      simpa [insert, List.nodup_cons] using hnd
    · have hmem : k' ∉ (insert k v tl).map Prod.fst := by
        intro hx
        rcases List.mem_map.mp hx with ⟨⟨a, b⟩, ha, hfst⟩
        rcases mem_insert ha with h' | h'
        · exact h (by simpa using hfst ▸ congrArg Prod.fst h')
        · exact hnd.1 (hfst ▸ List.mem_map_of_mem Prod.fst h')
      simp only [insert, if_neg h, List.map_cons, List.nodup_cons]
      exact ⟨hmem, ih hnd.2⟩

theorem mem_of_lookup {k : κ} {v : ν} {l : List (κ × ν)}
    (h : lookup k l = some v) : (k, v) ∈ l := by
  induction l with
  | nil => simp [lookup] at h
  | cons hd tl ih =>
    obtain ⟨k', v'⟩ := hd
    by_cases h₀ : k' = k
    · subst h₀
      simp only [lookup, if_true, Option.some.injEq] at h
      subst h
      exact List.mem_cons_self _ _
    · simp only [lookup, if_neg h₀] at h
      exact List.mem_cons_of_mem _ (ih h)

theorem not_mem_keys_of_lookup_eq_none {k : κ} {l : List (κ × ν)}
    (h : lookup k l = none) : k ∉ l.map Prod.fst := by
  induction l with
  | nil => simp
  | cons hd tl ih =>
    obtain ⟨k', v'⟩ := hd
    by_cases h₀ : k' = k
    · simp [lookup, h₀] at h
    · simp only [lookup, if_neg h₀] at h
      intro hx
      rw [List.map_cons, List.mem_cons] at hx
      rcases hx with h1 | h1
      · exact h₀ h1.symm
      · exact ih h h1

theorem erase_eq_of_lookup_none {k : κ} {l : List (κ × ν)}
    (h : lookup k l = none) : erase k l = l := by
  induction l with
  | nil => rfl
  | cons hd tl ih =>
    obtain ⟨k', v'⟩ := hd
    by_cases h₀ : k' = k
    · simp [lookup, h₀] at h
    · simp only [lookup, if_neg h₀] at h
      simp [erase, h₀, ih h]

theorem lookup_erase_none {k k' : κ} {l : List (κ × ν)}
    (h : lookup k l = none) : lookup k (erase k' l) = none := by
  by_cases hk : k' = k
  · subst hk
    rw [erase_eq_of_lookup_none h]
    exact h
  · rw [lookup_erase_ne k' k l hk]
    exact h

theorem keys_erase_nodup (k : κ) (l : List (κ × ν))
    (hnd : (l.map Prod.fst).Nodup) :
    ((erase k l).map Prod.fst).Nodup := by
  induction l with
  | nil => simp [erase]
  | cons hd tl ih =>
    obtain ⟨k', v'⟩ := hd
    simp only [List.map_cons, List.nodup_cons] at hnd
    by_cases h : k' = k
    · simpa [erase, h] using hnd.2
    · have hmem : k' ∉ (erase k tl).map Prod.fst := by
        intro hx
        rcases List.mem_map.mp hx with ⟨⟨a, b⟩, ha, hfst⟩
        exact hnd.1 (hfst ▸ List.mem_map_of_mem Prod.fst (mem_erase ha))
      simp only [erase, if_neg h, List.map_cons, List.nodup_cons]
      exact ⟨hmem, ih hnd.2⟩

end AList

namespace PySet

variable {α : Type} [DecidableEq α]

theorem mem_insert_self (x : α) (s : List α) : x ∈ insert x s := by
  by_cases h : x ∈ s <;> simp [insert, h]

theorem mem_insert_of_mem (x y : α) (s : List α) (h : y ∈ s) :
    y ∈ insert x s := by
  by_cases hx : x ∈ s <;> simp [insert, hx, h]

theorem mem_of_mem_insert {x y : α} {s : List α} (h : y ∈ insert x s) :
    y = x ∨ y ∈ s := by
  by_cases hx : x ∈ s
  · simp only [insert, if_pos hx] at h
    exact Or.inr h
  · simp only [insert, if_neg hx, List.mem_append, List.mem_singleton] at h
    exact h.symm.imp id id

theorem mem_erase_of_ne {x y : α} {s : List α} (hne : y ≠ x) (h : y ∈ s) :
    y ∈ erase x s :=
  (List.mem_erase_of_ne hne).mpr h

end PySet

/-! ## Claim C6: wrapped normalization is Euclidean modulo -/

/-- C6: for every integer position and positive width/height,
`WrappedBoundary.normalize_position` returns the Euclidean
(always-nonnegative) residues: each axis lands in `[0, dimension)` and is
congruent to the input; in particular for a 10×10 grid,
`normalize((15,15)) = (5,5)` and `normalize((-2,-3)) = (8,7)`. -/
theorem wrapped_normalization_euclidean (x y w h : Int)
    (hw : 0 < w) (hh : 0 < h) :
    0 ≤ (BoundaryHandler.normalize_position (.wrapped w h) (x, y)).1
    ∧ (BoundaryHandler.normalize_position (.wrapped w h) (x, y)).1 < w
    ∧ 0 ≤ (BoundaryHandler.normalize_position (.wrapped w h) (x, y)).2
    ∧ (BoundaryHandler.normalize_position (.wrapped w h) (x, y)).2 < h
    ∧ w ∣ (x - (BoundaryHandler.normalize_position (.wrapped w h) (x, y)).1)
    ∧ h ∣ (y - (BoundaryHandler.normalize_position (.wrapped w h) (x, y)).2)
    ∧ BoundaryHandler.normalize_position (.wrapped 10 10) (15, 15) = (5, 5)
    ∧ BoundaryHandler.normalize_position (.wrapped 10 10) (-2, -3) = (8, 7) := by
  simp only [BoundaryHandler.normalize_position]
  refine ⟨Int.emod_nonneg x hw.ne', Int.emod_lt_of_pos x hw,
    Int.emod_nonneg y hh.ne', Int.emod_lt_of_pos y hh, ⟨x / w, ?_⟩, ⟨y / h, ?_⟩,
    by decide, by decide⟩
  · have := Int.ediv_add_emod x w
    linarith
  · have := Int.ediv_add_emod y h
    linarith

/-- Witness for C6 at `x = -2, y = -3, w = h = 10`. -/
theorem wrapped_normalization_euclidean_witness :
    0 ≤ (BoundaryHandler.normalize_position (.wrapped 10 10) (-2, -3)).1
    ∧ (BoundaryHandler.normalize_position (.wrapped 10 10) (-2, -3)).1 < 10
    ∧ 0 ≤ (BoundaryHandler.normalize_position (.wrapped 10 10) (-2, -3)).2
    ∧ (BoundaryHandler.normalize_position (.wrapped 10 10) (-2, -3)).2 < 10
    ∧ (10 : Int) ∣ (-2 - (BoundaryHandler.normalize_position (.wrapped 10 10) (-2, -3)).1)
    ∧ (10 : Int) ∣ (-3 - (BoundaryHandler.normalize_position (.wrapped 10 10) (-2, -3)).2)
    ∧ BoundaryHandler.normalize_position (.wrapped 10 10) (15, 15) = (5, 5)
    ∧ BoundaryHandler.normalize_position (.wrapped 10 10) (-2, -3) = (8, 7) :=
  wrapped_normalization_euclidean (-2) (-3) 10 10 (by norm_num) (by norm_num)

/-! ## Claim C9: boundary handler construction from a string -/

/-- C9 counterexample: the claim demands failure for every string outside
`{"wrapped", "bounded", "infinite"}`, but the source lowercases its argument
first, so `"WRAPPED"` (not in that set) succeeds. -/
theorem create_boundary_case_counterexample :
    "WRAPPED" ∉ ["wrapped", "bounded", "infinite"]
    ∧ create_boundary_handler "WRAPPED" 3 4 =
        .ok (BoundaryHandler.wrapped 3 4) := by
  exact ⟨by decide, by decide⟩

/-- C9 amended: construction is case-insensitive.  For every string whose
*lowercased* form is `"wrapped"` / `"bounded"` / `"infinite"`,
`create_boundary_handler` returns the corresponding handler; for every
string whose lowercased form is none of these it fails with the
invalid-boundary-condition error. -/
theorem create_boundary_handler_case_insensitive (s : String) (w h : Int) :
    (pyLower s = "wrapped" →
      create_boundary_handler s w h = .ok (.wrapped w h))
    ∧ (pyLower s = "bounded" →
      create_boundary_handler s w h = .ok (.bounded w h))
    ∧ (pyLower s = "infinite" →
      create_boundary_handler s w h = .ok (.infinite w h))
    ∧ (pyLower s ≠ "wrapped" → pyLower s ≠ "bounded" → pyLower s ≠ "infinite" →
      create_boundary_handler s w h =
        .error ("Invalid boundary condition: " ++ s)) := by
  refine ⟨fun h1 => ?_, fun h1 => ?_, fun h1 => ?_, fun h1 h2 h3 => ?_⟩
  · simp [create_boundary_handler, h1]
  · simp [create_boundary_handler, h1]
  · simp [create_boundary_handler, h1]
  · simp [create_boundary_handler, h1, h2, h3]

/-- Witness for C9 at `s = "WRAPPED"`. -/
theorem create_boundary_handler_case_insensitive_witness :
    pyLower "WRAPPED" = "wrapped"
    ∧ create_boundary_handler "WRAPPED" 10 20 =
        .ok (BoundaryHandler.wrapped 10 20) :=
  ⟨by decide,
    (create_boundary_handler_case_insensitive "WRAPPED" 10 20).1 (by decide)⟩

/-! ## Claim C10: grid removal with an explicit raw position -/

/-- C10: on a 10×10 wrapped grid, `add_entity(42, (15,15))` stores the
normalized position (5,5) in cell (0,0); `remove_entity(42, (15,15))` uses
the raw supplied position, whose cell (1,1) holds nothing, so the id stays in
cell (0,0)'s bucket while being deleted from `entity_positions`; the
subsequent `get_entities_at_position((5,5))` scans that bucket and its
unguarded `entity_positions[entity_id]` lookup faults (modelled `none`)
instead of returning a result. -/
theorem grid_remove_raw_position_fault :
    (((SpatialGrid.mk 10 10 (.wrapped 10 10) 10 [] []).add_entity 42
        (15, 15)).remove_entity 42 (some (15, 15)))._entity_positions = []
    ∧ (((SpatialGrid.mk 10 10 (.wrapped 10 10) 10 [] []).add_entity 42
        (15, 15)).remove_entity 42 (some (15, 15)))._cells = [((0, 0), [42])]
    ∧ (((SpatialGrid.mk 10 10 (.wrapped 10 10) 10 [] []).add_entity 42
        (15, 15)).remove_entity 42
          (some (15, 15))).get_entities_at_position (5, 5) = none := by
  exact ⟨by decide, by decide, by decide⟩

/-! ## Claim C4: grid re-add and bucket membership -/

/-- C4 counterexample: on a 100×100 wrapped grid with cell size 10,
`add_entity(5, (0,0))` then `add_entity(5, (15,15))` leaves id 5 in *two*
cell buckets, (0,0) and (1,1) — the claim requires membership in exactly the
single bucket of `position_to_cell(normalize((15,15))) = (1,1)`. -/
theorem grid_readd_two_buckets_counterexample :
    (((SpatialGrid.mk 100 100 (.wrapped 100 100) 10 [] []).add_entity 5
        (0, 0)).add_entity 5 (15, 15)).cellsContaining 5 = [(0, 0), (1, 1)]
    ∧ ((0, 0) : Int × Int) ≠ (1, 1) := by
  exact ⟨by decide, by decide⟩

/-- C4 amended: after `add_entity(id, p1); add_entity(id, p2)` on an empty
grid, the stored position is `normalize(p2)` and the id is in the bucket of
`cell(normalize(p2))`; membership in exactly one bucket holds only when the
two normalized positions share a cell — otherwise the re-add leaves a stale
membership in `cell(normalize(p1))` as well, so the id sits in both buckets
(the at-most-one-cell invariant is maintained by `update_entity_position`,
not by re-adding). -/
theorem grid_readd_overwrites_position (bh : BoundaryHandler)
    (W H cs : Int) (id : EntityId) (p1 p2 : Position) :
    (((SpatialGrid.mk W H bh cs [] []).add_entity id p1).add_entity id
        p2).get_entity_position id = some (bh.normalize_position p2)
    ∧ ((SpatialGrid.mk W H bh cs [] []).position_to_cell
          (bh.normalize_position p1) =
        (SpatialGrid.mk W H bh cs [] []).position_to_cell
          (bh.normalize_position p2) →
      (((SpatialGrid.mk W H bh cs [] []).add_entity id p1).add_entity id
          p2).cellsContaining id =
        [(SpatialGrid.mk W H bh cs [] []).position_to_cell
          (bh.normalize_position p2)])
    ∧ ((SpatialGrid.mk W H bh cs [] []).position_to_cell
          (bh.normalize_position p1) ≠
        (SpatialGrid.mk W H bh cs [] []).position_to_cell
          (bh.normalize_position p2) →
      (((SpatialGrid.mk W H bh cs [] []).add_entity id p1).add_entity id
          p2).cellsContaining id =
        [(SpatialGrid.mk W H bh cs [] []).position_to_cell
            (bh.normalize_position p1),
          (SpatialGrid.mk W H bh cs [] []).position_to_cell
            (bh.normalize_position p2)]) := by
  refine ⟨?_, fun hc => ?_, fun hc => ?_⟩
  · simp [SpatialGrid.add_entity, SpatialGrid.bucketAdd,
      SpatialGrid.get_entity_position, SpatialGrid.position_to_cell,
      AList.lookup, AList.insert, PySet.insert]
  · simp only [SpatialGrid.position_to_cell] at hc
    simp [SpatialGrid.add_entity, SpatialGrid.bucketAdd,
      SpatialGrid.get_entity_position, SpatialGrid.cellsContaining,
      SpatialGrid.position_to_cell, AList.lookup, AList.insert,
      PySet.insert, hc]
  · simp only [SpatialGrid.position_to_cell] at hc
    simp [SpatialGrid.add_entity, SpatialGrid.bucketAdd,
      SpatialGrid.get_entity_position, SpatialGrid.cellsContaining,
      SpatialGrid.position_to_cell, AList.lookup, AList.insert,
      PySet.insert, hc, Ne.symm hc]

/-- Witness for C4 (distinct-cell branch) at a wrapped 100×100 grid,
cell size 10, id 5, positions (0,0) and (15,15). -/
theorem grid_readd_overwrites_position_witness :
    (((SpatialGrid.mk 100 100 (.wrapped 100 100) 10 [] []).add_entity 5
        (0, 0)).add_entity 5 (15, 15)).get_entity_position 5 =
      some ((BoundaryHandler.wrapped 100 100).normalize_position (15, 15))
    ∧ (((SpatialGrid.mk 100 100 (.wrapped 100 100) 10 [] []).add_entity 5
        (0, 0)).add_entity 5 (15, 15)).cellsContaining 5 =
      [(SpatialGrid.mk 100 100 (.wrapped 100 100) 10 [] []).position_to_cell
          ((BoundaryHandler.wrapped 100 100).normalize_position (0, 0)),
        (SpatialGrid.mk 100 100 (.wrapped 100 100) 10 [] []).position_to_cell
          ((BoundaryHandler.wrapped 100 100).normalize_position (15, 15))] :=
  ⟨(grid_readd_overwrites_position (.wrapped 100 100) 100 100 10 5 (0, 0)
      (15, 15)).1,
    (grid_readd_overwrites_position (.wrapped 100 100) 100 100 10 5 (0, 0)
      (15, 15)).2.2 (by decide)⟩

/-! ## Claim C3: component-level fault isolation -/

/-- C3 counterexample: in `ecs/entity.py` `Entity.update` has no
`try`/`except`.  With two components where the first one's `update` raises,
only the first is invoked (trace `[1]`, not `[1, 2]`) and the exception
escapes (`true`), contradicting the claim that the sibling is still invoked
and nothing propagates. -/
theorem ecs_entity_update_propagates_counterexample :
    ecsEntityUpdate (fun c (s : Nat) => (s + c, c == 1)) [1, 2] 0 =
      (1, [1], true) := by
  decide

/-- C3 amended: component-level fault isolation holds in the *simulation*
layer's `Entity.update` (`virtuallife/simulation/entity.py`), whose
per-component `try`/`except Exception` logs and continues: every attached
component's `update` is invoked exactly once, in order, whatever raises, and
the loop is total (no exception escapes); the ECS `Entity.update`
(`virtuallife/ecs/entity.py`) instead lets a component's exception propagate,
skipping the remaining siblings. -/
theorem sim_entity_update_fault_isolation {σ : Type}
    (beh : Nat → σ → σ × Bool) (comps : List Nat) (s : σ) :
    (simEntityUpdate beh comps s).2 = comps := by
  induction comps generalizing s with
  | nil => rfl
  | cons c cs ih => simp [simEntityUpdate, ih]

/-! ## Claim C5: consume never over-draws -/

/-- C5: with amount `a > 0` stored for `(rt, pos)` and a request `r ≥ 0`,
`consume_resource` returns `min a r`; the amount readable afterwards is
`max 0 (a - r)`; when `a - r ≤ 0` the position entry is deleted (never stored
as 0), and if it was the type's last position the type disappears from
`get_all_resource_types`; on an absent type or position it returns 0 and
leaves the store untouched.  (The dict-key `Nodup` hypotheses state what
Python dictionaries guarantee by construction.) -/
theorem consume_resource_contract (m : ResourceManager) (rt : String)
    (pos : Position) (r a : ℚ) (inner : List (Position × ℚ))
    (hrt : AList.lookup rt m._resources = some inner)
    (hpos : AList.lookup pos inner = some a)
    (hnd : (m._resources.map Prod.fst).Nodup)
    (hndi : (inner.map Prod.fst).Nodup)
    (ha : 0 < a) (hr : 0 ≤ r) :
    (m.consume_resource rt pos r).1 = min a r
    ∧ (m.consume_resource rt pos r).2.get_resource_amount rt pos =
        max 0 (a - r)
    ∧ (a - r ≤ 0 → ∀ inner2,
        AList.lookup rt (m.consume_resource rt pos r).2._resources =
          some inner2 → AList.lookup pos inner2 = none)
    ∧ (a - r ≤ 0 → inner = [(pos, a)] →
        rt ∉ (m.consume_resource rt pos r).2.get_all_resource_types)
    ∧ (∀ rt2 pos2 r2, AList.lookup rt2 m._resources = none →
        m.consume_resource rt2 pos2 r2 = (0, m))
    ∧ (∀ rt2 pos2 r2 inner2, AList.lookup rt2 m._resources = some inner2 →
        AList.lookup pos2 inner2 = none →
        m.consume_resource rt2 pos2 r2 = (0, m)) := by
  have habsent : ∀ rt2 pos2 r2, AList.lookup rt2 m._resources = none →
      m.consume_resource rt2 pos2 r2 = (0, m) := by
    intro rt2 pos2 r2 h2
    simp [ResourceManager.consume_resource, h2]
  have habsent2 : ∀ rt2 pos2 r2 inner2,
      AList.lookup rt2 m._resources = some inner2 →
      AList.lookup pos2 inner2 = none →
      m.consume_resource rt2 pos2 r2 = (0, m) := by
    intro rt2 pos2 r2 inner2 h2 h3
    simp [ResourceManager.consume_resource, h2, h3]
  by_cases hle : a ≤ r
  · -- full draw: the entry is exhausted and deleted
    have hmin : min a r = a := min_eq_left hle
    have hrem : a - min a r ≤ 0 := by rw [hmin]; simp
    have hnotpos : ¬ (0 < a - min a r) := not_lt.mpr hrem
    have hmax : max 0 (a - r) = 0 := max_eq_left (by linarith)
    by_cases hinner : AList.erase pos inner = []
    · -- last position for the type: the whole type entry is dropped
      have hmain : m.consume_resource rt pos r =
          (a, ⟨AList.erase rt m._resources⟩) := by
        simp [ResourceManager.consume_resource, hrt, hpos, hmin, hrem,
          hinner]
      refine ⟨by rw [hmain, hmin], ?_, ?_, ?_, habsent, habsent2⟩
      · rw [hmain, hmax]
        simp [ResourceManager.get_resource_amount,
          AList.lookup_erase_self rt m._resources hnd]
      · intro _ inner2 h2
        rw [hmain] at h2
        simp only at h2
        rw [AList.lookup_erase_self rt m._resources hnd] at h2
        exact absurd h2 (by simp)
      · intro _ _
        rw [hmain]
        simpa [ResourceManager.get_all_resource_types] using
          AList.not_mem_keys_of_lookup_eq_none
            (AList.lookup_erase_self rt m._resources hnd)
    · -- other positions remain for the type
      have hmain : m.consume_resource rt pos r =
          (a, ⟨AList.insert rt (AList.erase pos inner) m._resources⟩) := by
        simp [ResourceManager.consume_resource, hrt, hpos, hmin, hrem,
          hinner]
      refine ⟨by rw [hmain, hmin], ?_, ?_, ?_, habsent, habsent2⟩
      · rw [hmain, hmax]
        simp [ResourceManager.get_resource_amount,
          AList.lookup_insert_self,
          AList.lookup_erase_self pos inner hndi]
      · intro _ inner2 h2
        rw [hmain] at h2
        simp only [AList.lookup_insert_self, Option.some.injEq] at h2
        rw [← h2]
        exact AList.lookup_erase_self pos inner hndi
      · intro _ hsingle
        exact absurd
          (show AList.erase pos inner = [] by rw [hsingle]; simp [AList.erase])
          hinner
  · -- partial draw: a positive remainder is stored back
    push_neg at hle
    have hmin : min a r = r := min_eq_right hle.le
    have hrem : ¬ (a - min a r ≤ 0) := by rw [hmin]; linarith
    have hmax : max 0 (a - r) = a - r := max_eq_right (by linarith)
    have hmain : m.consume_resource rt pos r =
        (r, ⟨AList.insert rt (AList.insert pos (a - r) inner)
          m._resources⟩) := by
      simp only [ResourceManager.consume_resource, hrt, hpos, hmin]
      rw [if_neg (by linarith : ¬ (a - r ≤ 0))]
    refine ⟨by rw [hmain, hmin], ?_, ?_, ?_, habsent, habsent2⟩
    · rw [hmain, hmax]
      simp [ResourceManager.get_resource_amount, AList.lookup_insert_self]
    · intro hcontra
      exact absurd hcontra (by linarith)
    · intro hcontra
      exact absurd hcontra (by linarith)

/-- Witness for C5: store `{"food": {(0,0): 5}}`, request 7. -/
theorem consume_resource_contract_witness :
    ((⟨[("food", [((0, 0), 5)])]⟩ : ResourceManager).consume_resource
        "food" (0, 0) 7).1 = min 5 7
    ∧ ((⟨[("food", [((0, 0), 5)])]⟩ : ResourceManager).consume_resource
        "food" (0, 0) 7).2.get_resource_amount "food" (0, 0) =
        max 0 (5 - 7)
    ∧ ((5 : ℚ) - 7 ≤ 0 → ∀ inner2,
        AList.lookup "food"
          ((⟨[("food", [((0, 0), 5)])]⟩ : ResourceManager).consume_resource
            "food" (0, 0) 7).2._resources = some inner2 →
        AList.lookup (0, 0) inner2 = none)
    ∧ ((5 : ℚ) - 7 ≤ 0 →
        ([((0, 0), (5 : ℚ))] : List (Position × ℚ)) = [((0, 0), 5)] →
        "food" ∉ ((⟨[("food", [((0, 0), 5)])]⟩ :
          ResourceManager).consume_resource "food" (0, 0)
            7).2.get_all_resource_types)
    ∧ (∀ rt2 pos2 r2, AList.lookup rt2
          (⟨[("food", [((0, 0), 5)])]⟩ : ResourceManager)._resources = none →
        (⟨[("food", [((0, 0), 5)])]⟩ : ResourceManager).consume_resource
          rt2 pos2 r2 = (0, ⟨[("food", [((0, 0), 5)])]⟩))
    ∧ (∀ rt2 pos2 r2 inner2, AList.lookup rt2
          (⟨[("food", [((0, 0), 5)])]⟩ : ResourceManager)._resources =
            some inner2 →
        AList.lookup pos2 inner2 = none →
        (⟨[("food", [((0, 0), 5)])]⟩ : ResourceManager).consume_resource
          rt2 pos2 r2 = (0, ⟨[("food", [((0, 0), 5)])]⟩)) :=
  consume_resource_contract ⟨[("food", [((0, 0), 5)])]⟩ "food" (0, 0) 7 5
    [((0, 0), 5)] (by simp [AList.lookup]) (by simp [AList.lookup])
    (by simp) (by simp) (by norm_num) (by norm_num)

/-! ## Claim C7: the store invariant over operation histories -/

/-- The store invariant, in propositional form. -/
theorem invariantHolds_iff (m : ResourceManager) :
    m.invariantHolds = true ↔
      ∀ tm ∈ m._resources, tm.2 ≠ [] ∧ ∀ pa ∈ tm.2, 0 < pa.2 := by
  simp [ResourceManager.invariantHolds, List.all_eq_true, and_comm]

/-- Every value readable from the type's inner map of an invariant-satisfying
store is positive. -/
theorem inner_pairs_pos (m : ResourceManager)
    (hm : ∀ tm ∈ m._resources, tm.2 ≠ [] ∧ ∀ pa ∈ tm.2, 0 < pa.2)
    (rt : String) :
    ∀ pa ∈ (AList.lookup rt m._resources).getD [], 0 < pa.2 := by
  cases hl : AList.lookup rt m._resources with
  | none => simp
  | some inner0 =>
    simpa using (hm (rt, inner0) (AList.mem_of_lookup hl)).2

theorem add_resource_inv (m : ResourceManager) (rt : String) (pos : Position)
    (amount : ℚ) (hm : m.invariantHolds = true) (hamt : 0 < amount) :
    (m.add_resource rt pos amount).invariantHolds = true := by
  rw [invariantHolds_iff] at hm ⊢
  intro tm htm
  simp only [ResourceManager.add_resource] at htm
  rcases AList.mem_insert htm with h | h
  · subst h
    refine ⟨AList.insert_ne_nil _ _ _, ?_⟩
    intro pa hpa
    rcases AList.mem_insert hpa with h' | h'
    · subst h'
      have hcur : 0 ≤ (AList.lookup pos
          ((AList.lookup rt m._resources).getD [])).getD 0 := by
        cases hc : AList.lookup pos ((AList.lookup rt m._resources).getD []) with
        | none => simp
        | some v =>
          simpa using
            (inner_pairs_pos m hm rt (pos, v) (AList.mem_of_lookup hc)).le
      simpa using by linarith
    · exact inner_pairs_pos m hm rt pa h'
  · exact hm tm h

theorem remove_resource_inv (m : ResourceManager) (rt : String)
    (pos : Position) (hm : m.invariantHolds = true) :
    (m.remove_resource rt pos).invariantHolds = true := by
  rw [invariantHolds_iff] at hm ⊢
  intro tm htm
  cases hl : AList.lookup rt m._resources with
  | none =>
    simp only [ResourceManager.remove_resource, hl] at htm
    exact hm tm htm
  | some inner =>
    simp only [ResourceManager.remove_resource, hl] at htm
    by_cases hp : (AList.lookup pos inner).isSome
    · rw [if_pos hp] at htm
      have hinner := hm (rt, inner) (AList.mem_of_lookup hl)
      by_cases he : AList.erase pos inner = []
      · rw [if_pos he] at htm
        exact hm tm (AList.mem_erase htm)
      · rw [if_neg he] at htm
        rcases AList.mem_insert htm with h | h
        · subst h
          exact ⟨he, fun pa hpa => hinner.2 pa (AList.mem_erase hpa)⟩
        · exact hm tm h
    · rw [if_neg hp] at htm
      exact hm tm htm

theorem consume_resource_inv (m : ResourceManager) (rt : String)
    (pos : Position) (amount : ℚ) (hm : m.invariantHolds = true) :
    (m.consume_resource rt pos amount).2.invariantHolds = true := by
  rw [invariantHolds_iff] at hm ⊢
  intro tm htm
  cases hl : AList.lookup rt m._resources with
  | none =>
    simp only [ResourceManager.consume_resource, hl] at htm
    exact hm tm htm
  | some inner =>
    cases hp : AList.lookup pos inner with
    | none =>
      simp only [ResourceManager.consume_resource, hl, hp] at htm
      exact hm tm htm
    | some available =>
      simp only [ResourceManager.consume_resource, hl, hp] at htm
      have hinner := hm (rt, inner) (AList.mem_of_lookup hl)
      by_cases hz : available - min available amount ≤ 0
      · rw [if_pos hz] at htm
        by_cases he : AList.erase pos inner = []
        · rw [if_pos he] at htm
          exact hm tm (AList.mem_erase htm)
        · rw [if_neg he] at htm
          rcases AList.mem_insert htm with h | h
          · subst h
            exact ⟨he, fun pa hpa => hinner.2 pa (AList.mem_erase hpa)⟩
          · exact hm tm h
      · rw [if_neg hz] at htm
        rcases AList.mem_insert htm with h | h
        · subst h
          refine ⟨AList.insert_ne_nil _ _ _, ?_⟩
          intro pa hpa
          rcases AList.mem_insert hpa with h' | h'
          · subst h'
            simpa using not_le.mp hz
          · exact hinner.2 pa h'
        · exact hm tm h

theorem update_resource_inv (m : ResourceManager) (rt : String)
    (pos : Position) (amount : ℚ) (hm : m.invariantHolds = true) :
    (m.update_resource rt pos amount).invariantHolds = true := by
  by_cases hz : amount ≤ 0
  · simp only [ResourceManager.update_resource, if_pos hz]
    exact remove_resource_inv m rt pos hm
  · rw [invariantHolds_iff] at hm ⊢
    intro tm htm
    simp only [ResourceManager.update_resource, if_neg hz] at htm
    rcases AList.mem_insert htm with h | h
    · subst h
      refine ⟨AList.insert_ne_nil _ _ _, ?_⟩
      intro pa hpa
      rcases AList.mem_insert hpa with h' | h'
      · subst h'
        simpa using not_le.mp hz
      · exact inner_pairs_pos m hm rt pa h'
    · exact hm tm h

theorem transfer_resource_inv (m : ResourceManager) (rt : String)
    (fp tp : Position) (amount : ℚ) (hm : m.invariantHolds = true) :
    (m.transfer_resource rt fp tp amount).2.invariantHolds = true := by
  simp only [ResourceManager.transfer_resource]
  by_cases hc : 0 < (m.consume_resource rt fp amount).1
  · rw [if_pos hc]
    exact add_resource_inv _ rt tp _ (consume_resource_inv m rt fp amount hm)
      hc
  · rw [if_neg hc]
    exact consume_resource_inv m rt fp amount hm

theorem rop_apply_inv (m : ResourceManager) (op : ROp)
    (hm : m.invariantHolds = true) (hop : op.addPositive) :
    (op.apply m).invariantHolds = true := by
  cases op with
  | add rt pos amount => exact add_resource_inv m rt pos amount hm hop
  | remove rt pos => exact remove_resource_inv m rt pos hm
  | consume rt pos amount => exact consume_resource_inv m rt pos amount hm
  | update rt pos amount => exact update_resource_inv m rt pos amount hm
  | transfer rt fp tp amount => exact transfer_resource_inv m rt fp tp amount hm
  | clear =>
    rw [invariantHolds_iff]
    intro tm htm
    simp [ROp.apply, ResourceManager.clear] at htm
  | clearType rt =>
    rw [invariantHolds_iff] at hm ⊢
    intro tm htm
    exact hm tm (AList.mem_erase htm)

/-- C7 counterexample: the claim quantifies over *every* operation sequence,
but `add_resource("food", (0,0), -1)` on the empty store leaves a stored
entry with amount −1 ≤ 0 (the defaultdicts create the missing entry at 0.0
and then add), violating the invariant. -/
theorem resource_invariant_counterexample :
    (ROp.applyAll [ROp.add "food" (0, 0) (-1)] ⟨[]⟩)._resources =
      [("food", [((0, 0), -1)])]
    ∧ (ROp.applyAll [ROp.add "food" (0, 0) (-1)] ⟨[]⟩).invariantHolds =
        false := by
  constructor
  · norm_num [ROp.applyAll, ROp.apply, ResourceManager.add_resource,
      AList.lookup, AList.insert]
  · norm_num [ROp.applyAll, ROp.apply, ResourceManager.add_resource,
      ResourceManager.invariantHolds, AList.lookup, AList.insert]

/-- C7 amended: starting from the empty store, after any sequence of
`ResourceManager` operations in which every `add_resource` call has a
*positive* amount (`consume`/`update`/`transfer`/`remove`/`clear` calls are
unrestricted), no stored entry has amount ≤ 0 and no resource type maps to an
empty position map.  (An `add_resource` with amount ≤ 0 can store a
non-positive entry, as the counterexample shows.) -/
theorem resource_invariant_positive_adds (ops : List ROp)
    (hops : ∀ op ∈ ops, op.addPositive) :
    (ROp.applyAll ops ⟨[]⟩).invariantHolds = true := by
  have haux : ∀ (ops : List ROp) (m : ResourceManager),
      m.invariantHolds = true → (∀ op ∈ ops, op.addPositive) →
      (ROp.applyAll ops m).invariantHolds = true := by
    intro ops
    induction ops with
    | nil => intro m hm _; exact hm
    | cons op rest ih =>
      intro m hm hops
      exact ih (op.apply m)
        (rop_apply_inv m op hm (hops op (List.mem_cons_self _ _)))
        (fun o ho => hops o (List.mem_cons_of_mem _ ho))
  exact haux ops ⟨[]⟩ (by rw [invariantHolds_iff]; intro tm htm; simp at htm)
    hops

/-- Witness for C7: add 5 then consume 5 of "food" at the origin. -/
theorem resource_invariant_positive_adds_witness :
    (∀ op ∈ [ROp.add "food" (0, 0) 5, ROp.consume "food" (0, 0) 5],
      op.addPositive)
    ∧ (ROp.applyAll [ROp.add "food" (0, 0) 5, ROp.consume "food" (0, 0) 5]
        ⟨[]⟩).invariantHolds = true :=
  ⟨by simp [ROp.addPositive],
    resource_invariant_positive_adds _ (by simp [ROp.addPositive])⟩

/-! ## Claim C8: the runner step contract -/

/-- Trace shape of the listener-notification fold, for any starting
accumulator. -/
theorem listener_fold_sig (lbeh : Nat → List EntityId → List EntityId × Bool)
    (event : String) :
    ∀ (cbs : List Nat) (env : List EntityId) (tr : List REvent),
      ((cbs.foldl (fun acc l =>
          let r := lbeh l acc.1
          (r.1, acc.2 ++ [REvent.listenerCall event l r.2])) (env, tr)).2).map
            REvent.sig =
        tr.map REvent.sig ++ cbs.map (fun l => (event, l)) := by
  intro cbs
  induction cbs with
  | nil => intro env tr; simp
  | cons c cs ih =>
    intro env tr
    simp only [List.foldl_cons]
    rw [ih]
    simp [REvent.sig]

/-- `notify_listeners` invokes each registered callback exactly once, in
registration order, whether or not earlier callbacks raise. -/
theorem notify_listeners_sig (lbeh : Nat → List EntityId → List EntityId × Bool)
    (event : String) (cbs : List Nat) (env : List EntityId) :
    ((notify_listeners lbeh event cbs env).2).map REvent.sig =
      cbs.map (fun l => (event, l)) := by
  simpa [notify_listeners] using listener_fold_sig lbeh event cbs env []

/-- Trace shape of the per-entity update fold, for any starting
accumulator. -/
theorem entity_fold_sig (ebeh : EntityId → List EntityId → List EntityId × Bool) :
    ∀ (es : List EntityId) (env : List EntityId) (tr : List REvent),
      ((es.foldl (fun acc e =>
          let u := ebeh e acc.1
          (u.1, acc.2 ++ [REvent.entityUpdate e u.2])) (env, tr)).2).map
            REvent.sig =
        tr.map REvent.sig ++ es.map (fun e => ("entity_update", e)) := by
  intro es
  induction es with
  | nil => intro env tr; simp
  | cons e es ih =>
    intro env tr
    simp only [List.foldl_cons]
    rw [ih]
    simp [REvent.sig]

/-- C8: one `step()` fires every registered `step_start` listener exactly
once, increments `current_step` by exactly 1, updates every entity of the
snapshot taken after the start listeners ran — exactly once each, in order,
even when some listener or entity update raises (the per-callback and
per-entity handlers swallow the exception) — and then fires every
`step_end` listener exactly once.  `step` is a total function: the outer
handler means no exception ever escapes it. -/
theorem runner_step_contract
    (lbeh : Nat → List EntityId → List EntityId × Bool)
    (ebeh : EntityId → List EntityId → List EntityId × Bool)
    (r : SimulationRunner) :
    (SimulationRunner.step lbeh ebeh r).1.current_step = r.current_step + 1
    ∧ ((SimulationRunner.step lbeh ebeh r).2).map REvent.sig =
        r.step_start_listeners.map (fun l => ("step_start", l))
        ++ (notify_listeners lbeh "step_start" r.step_start_listeners
              r.envEntities).1.map (fun e => ("entity_update", e))
        ++ r.step_end_listeners.map (fun l => ("step_end", l)) := by
  refine ⟨rfl, ?_⟩
  simp only [SimulationRunner.step, List.map_append]
  rw [notify_listeners_sig, notify_listeners_sig,
    entity_fold_sig ebeh _ _ []]
  simp

/-! ## Claim C2: no system re-matching on structural change -/

/-- C2 counterexample: giving the live entity component type 1 completes
`c2System`'s requirement set (`matches_entity` is now true), yet the
system's matched-entity set is *not* updated — it stays empty, where the
claim requires id 7 to have been added.  `Entity.add_component` only sets
the dirty flag; no re-matching ever runs. -/
theorem component_add_no_rematch_counterexample :
    ((c2World.entityAddComponent 7 1).get_entity 7).map
        (fun e => c2System.matches_entity e) = some true
    ∧ (c2World.entityAddComponent 7 1).systems.map ECSSystem.entities =
        [[]] := by
  exact ⟨by decide, by decide⟩

/-- C2 amended: adding or removing a component on a live stored entity
mutates only that entity's component map and dirty flag; *every* system's
matched-entity set — affected requirement set or not — is left completely
unchanged (re-matching happens only in `World.add_entity` /
`World.add_system` / `World.remove_entity`). -/
theorem component_mutation_leaves_systems_unchanged (w : World)
    (id : EntityId) (t : Nat) :
    (w.entityAddComponent id t).systems = w.systems
    ∧ (w.entityRemoveComponent id t).systems = w.systems
    ∧ (∀ e, w.get_entity id = some e → e._components.contains t = false →
        (w.entityAddComponent id t).get_entity id =
          some { e with _components := e._components ++ [t], _dirty := true })
    ∧ (∀ e, w.get_entity id = some e → e._components.contains t = true →
        (w.entityRemoveComponent id t).get_entity id =
          some { e with _components := e._components.erase t,
                        _dirty := true }) := by
  refine ⟨?_, ?_, ?_, ?_⟩
  · cases hl : AList.lookup id w.entities with
    | none => simp [World.entityAddComponent, hl]
    | some e =>
      cases he : e.add_component t with
      | ok e' => simp [World.entityAddComponent, hl, he]
      | error msg => simp [World.entityAddComponent, hl, he]
  · cases hl : AList.lookup id w.entities with
    | none => simp [World.entityRemoveComponent, hl]
    | some e => simp [World.entityRemoveComponent, hl]
  · intro e hl hc
    simp only [World.get_entity] at hl
    have hc' : t ∉ e._components := by simpa using hc
    have he : e.add_component t =
        .ok { e with _components := e._components ++ [t], _dirty := true } := by
      simp [ECSEntity.add_component, hc']
    simp [World.entityAddComponent, World.get_entity, hl, he,
      AList.lookup_insert_self]
  · intro e hl hc
    simp only [World.get_entity] at hl
    have hc' : t ∈ e._components := by simpa using hc
    have he : e.remove_component t =
        { e with _components := e._components.erase t, _dirty := true } := by
      simp [ECSEntity.remove_component, hc']
    simp [World.entityRemoveComponent, World.get_entity, hl, he,
      AList.lookup_insert_self]

/-- Witness for C2 at a world holding entity 7 with component type 2 and no
systems: adding type 1 and removing type 2 both leave `systems` unchanged and
update the stored entity. -/
theorem component_mutation_leaves_systems_unchanged_witness :
    ((⟨[(7, ⟨7, (0, 0), [2], true⟩)], [], [], [], false, none⟩ :
        World).entityAddComponent 7 1).systems =
      (⟨[(7, ⟨7, (0, 0), [2], true⟩)], [], [], [], false, none⟩ :
        World).systems
    ∧ ((⟨[(7, ⟨7, (0, 0), [2], true⟩)], [], [], [], false, none⟩ :
        World).entityAddComponent 7 1).get_entity 7 =
      some ⟨7, (0, 0), [2, 1], true⟩
    ∧ ((⟨[(7, ⟨7, (0, 0), [2], true⟩)], [], [], [], false, none⟩ :
        World).entityRemoveComponent 7 2).get_entity 7 =
      some ⟨7, (0, 0), [], true⟩ :=
  ⟨(component_mutation_leaves_systems_unchanged _ 7 1).1,
    (component_mutation_leaves_systems_unchanged _ 7 1).2.2.1
      ⟨7, (0, 0), [2], true⟩ (by decide) (by decide),
    (component_mutation_leaves_systems_unchanged _ 7 2).2.2.2
      ⟨7, (0, 0), [2], true⟩ (by decide) (by decide)⟩

/-! ## Claim C1: deferred mutation during a tick

Helper lemmas about the bulk insert/erase folds performed by the
reconciliation phase, and a characterization of the system pass. -/

theorem lookup_insfold_of_no_id (e : ECSEntity) :
    ∀ (adds : List ECSEntity) (t : List (EntityId × ECSEntity)),
      (∀ a ∈ adds, a.id ≠ e.id) →
      AList.lookup e.id (adds.foldl (fun t a => AList.insert a.id a t) t) =
        AList.lookup e.id t := by
  intro adds
  induction adds with
  | nil => intro t _; rfl
  | cons a adds ih =>
    intro t hno
    simp only [List.foldl_cons]
    rw [ih _ (fun x hx => hno x (List.mem_cons_of_mem _ hx)),
      AList.lookup_insert_ne _ _ _ _ (hno a (List.mem_cons_self _ _))]

theorem lookup_insfold_last (e : ECSEntity) :
    ∀ (adds : List ECSEntity) (t : List (EntityId × ECSEntity)),
      adds.filter (fun a => a.id == e.id) = [e] →
      AList.lookup e.id (adds.foldl (fun t a => AList.insert a.id a t) t) =
        some e := by
  intro adds
  induction adds with
  | nil => intro t h; simp at h
  | cons a adds ih =>
    intro t hf
    by_cases hid : a.id = e.id
    · rw [List.filter_cons_of_pos (by simpa using hid)] at hf
      obtain ⟨ha, hrest⟩ := List.cons_eq_cons.mp hf
      have hno : ∀ x ∈ adds, x.id ≠ e.id := by
        intro x hx hxid
        have hx' : x ∈ adds.filter (fun a => a.id == e.id) :=
          List.mem_filter.mpr ⟨hx, by simpa using hxid⟩
        rw [hrest] at hx'
        simp at hx'
      simp only [List.foldl_cons]
      rw [lookup_insfold_of_no_id e adds _ hno, ha,
        AList.lookup_insert_self]
    · rw [List.filter_cons_of_neg (by simpa using hid)] at hf
      simp only [List.foldl_cons]
      exact ih _ hf

theorem insfold_keys_nodup :
    ∀ (adds : List ECSEntity) (t : List (EntityId × ECSEntity)),
      (t.map Prod.fst).Nodup →
      ((adds.foldl (fun t a => AList.insert a.id a t) t).map Prod.fst).Nodup := by
  intro adds
  induction adds with
  | nil => intro t h; exact h
  | cons a adds ih =>
    intro t h
    simp only [List.foldl_cons]
    exact ih _ (AList.keys_insert_nodup _ _ _ h)

theorem lookup_erasefold_of_not_mem (x : EntityId) :
    ∀ (rems : List EntityId) (t : List (EntityId × ECSEntity)),
      x ∉ rems →
      AList.lookup x (rems.foldl (fun t id => AList.erase id t) t) =
        AList.lookup x t := by
  intro rems
  induction rems with
  | nil => intro t _; rfl
  | cons r rs ih =>
    intro t hx
    simp only [List.foldl_cons]
    rw [ih _ (fun h => hx (List.mem_cons_of_mem _ h)),
      AList.lookup_erase_ne r x t (fun h => hx (h ▸ List.mem_cons_self _ _))]

theorem lookup_erasefold_none (x : EntityId) :
    ∀ (rems : List EntityId) (t : List (EntityId × ECSEntity)),
      AList.lookup x t = none →
      AList.lookup x (rems.foldl (fun t id => AList.erase id t) t) = none := by
  intro rems
  induction rems with
  | nil => intro t h; exact h
  | cons r rs ih =>
    intro t h
    simp only [List.foldl_cons]
    exact ih _ (AList.lookup_erase_none h)

theorem lookup_erasefold_of_mem (x : EntityId) :
    ∀ (rems : List EntityId) (t : List (EntityId × ECSEntity)),
      x ∈ rems → (t.map Prod.fst).Nodup →
      AList.lookup x (rems.foldl (fun t id => AList.erase id t) t) = none := by
  intro rems
  induction rems with
  | nil => intro t h; simp at h
  | cons r rs ih =>
    intro t hx hnd
    simp only [List.foldl_cons]
    by_cases hxr : x = r
    · subst hxr
      exact lookup_erasefold_none x rs _ (AList.lookup_erase_self x t hnd)
    · exact ih _ ((List.mem_cons.mp hx).resolve_left hxr)
        (AList.keys_erase_nodup _ _ hnd)

theorem mem_queuedAdds {e : ECSEntity} {acts : List WorldAction}
    (h : WorldAction.addE e ∈ acts) : e ∈ WorldAction.queuedAdds acts := by
  rw [WorldAction.queuedAdds, List.mem_filterMap]
  exact ⟨.addE e, h, rfl⟩

theorem removal_fold_mem (rid : EntityId) :
    ∀ (acts : List WorldAction) (s : List EntityId),
      (WorldAction.removeE rid ∈ acts ∨ rid ∈ s) →
      rid ∈ acts.foldl (fun s a => match a with
        | .removeE id => PySet.insert id s
        | _ => s) s := by
  intro acts
  induction acts with
  | nil =>
    intro s h
    rcases h with h | h
    · simp at h
    · exact h
  | cons a acts ih =>
    intro s h
    simp only [List.foldl_cons]
    apply ih
    rcases h with h | h
    · rcases List.mem_cons.mp h with h | h
      · right
        rw [← h]
        exact PySet.mem_insert_self rid s
      · left
        exact h
    · right
      cases a with
      | addE e => exact h
      | removeE id => exact PySet.mem_insert_of_mem id rid s h

theorem mem_queuedRemovals {rid : EntityId} {acts : List WorldAction}
    (h : WorldAction.removeE rid ∈ acts) :
    rid ∈ WorldAction.queuedRemovals acts :=
  removal_fold_mem rid acts [] (Or.inl h)

/-- During the system pass every `add_entity` / `remove_entity` call only
feeds the pending buffers: the entity table, systems, grid and flag are
untouched. -/
theorem processing_fold_fields :
    ∀ (acts : List WorldAction) (w : World), w._is_processing = true →
      acts.foldl WorldAction.applyTo w =
        { w with
          _entities_pending_add :=
            w._entities_pending_add ++ WorldAction.queuedAdds acts,
          _entity_ids_pending_removal :=
            acts.foldl (fun s a => match a with
              | .removeE id => PySet.insert id s
              | _ => s) w._entity_ids_pending_removal } := by
  intro acts
  induction acts with
  | nil => intro w hw; simp [WorldAction.queuedAdds]
  | cons a acts ih =>
    intro w hw
    cases a with
    | addE e =>
      simp only [List.foldl_cons, WorldAction.applyTo, World.add_entity, hw,
        if_true]
      rw [ih _ (by simpa using hw)]
      simp [WorldAction.queuedAdds, List.append_assoc]
    | removeE id =>
      simp only [List.foldl_cons, WorldAction.applyTo, World.remove_entity,
        hw, if_true]
      rw [ih _ (by simpa using hw)]
      simp [WorldAction.queuedAdds]

/-- The reconciliation add loop acts field-wise: table inserts, per-system
registration, grid mirroring; buffers and flag untouched. -/
theorem addfold_fields :
    ∀ (adds : List ECSEntity) (w : World),
      adds.foldl World._add_entity_immediate w =
        { w with
          entities := adds.foldl (fun t a => AList.insert a.id a t) w.entities,
          systems := adds.foldl
            (fun ss a => ss.map (fun s => s.register_entity a)) w.systems,
          _spatial_grid := adds.foldl
            (fun og a => og.map (fun g => g.add_entity a.id a.position))
            w._spatial_grid } := by
  intro adds
  induction adds with
  | nil => intro w; rfl
  | cons a adds ih =>
    intro w
    simp only [List.foldl_cons]
    rw [ih]
    rfl

/-- The reconciliation removal loop erases exactly the processed ids from the
entity table (no-op for unknown ids, as in the source guard). -/
theorem remfold_entities :
    ∀ (rems : List EntityId) (w : World),
      (rems.foldl World._remove_entity_immediate w).entities =
        rems.foldl (fun t id => AList.erase id t) w.entities := by
  intro rems
  induction rems with
  | nil => intro w; rfl
  | cons r rs ih =>
    intro w
    simp only [List.foldl_cons]
    rw [ih]
    unfold World._remove_entity_immediate
    by_cases hg : (AList.lookup r w.entities).isNone
    · rw [if_pos hg]
      rw [AList.erase_eq_of_lookup_none (Option.isNone_iff_eq_none.mp hg)]
    · rw [if_neg hg]

theorem remfold_pending_add :
    ∀ (rems : List EntityId) (w : World),
      (rems.foldl World._remove_entity_immediate w)._entities_pending_add =
        w._entities_pending_add := by
  intro rems
  induction rems with
  | nil => intro w; rfl
  | cons r rs ih =>
    intro w
    simp only [List.foldl_cons]
    rw [ih]
    unfold World._remove_entity_immediate
    by_cases hg : (AList.lookup r w.entities).isNone
    · rw [if_pos hg]
    · rw [if_neg hg]

theorem register_mem_self (s : ECSSystem) (e : ECSEntity)
    (h : s.matches_entity e = true) :
    e.id ∈ (s.register_entity e).entities := by
  unfold ECSSystem.register_entity
  rw [if_pos h]
  exact PySet.mem_insert_self _ _

theorem register_mem_preserve (s : ECSSystem) (a : ECSEntity) (x : EntityId)
    (hx : x ∈ s.entities) : x ∈ (s.register_entity a).entities := by
  unfold ECSSystem.register_entity
  split
  · exact PySet.mem_insert_of_mem _ _ _ hx
  · exact hx

theorem register_matches_invariant (s : ECSSystem) (a e : ECSEntity) :
    (s.register_entity a).matches_entity e = s.matches_entity e := by
  unfold ECSSystem.register_entity
  split <;> rfl

theorem unregister_mem_preserve (s : ECSSystem) (id x : EntityId)
    (hne : x ≠ id) (hx : x ∈ s.entities) :
    x ∈ (s.unregister_entity id).entities := by
  unfold ECSSystem.unregister_entity
  split
  · exact PySet.mem_erase_of_ne hne hx
  · exact hx

theorem regfold_mem_preserve (x : EntityId) :
    ∀ (adds : List ECSEntity) (s : ECSSystem), x ∈ s.entities →
      x ∈ (adds.foldl (fun s a => s.register_entity a) s).entities := by
  intro adds
  induction adds with
  | nil => intro s h; exact h
  | cons a adds ih =>
    intro s h
    simp only [List.foldl_cons]
    exact ih _ (register_mem_preserve s a x h)

theorem regfold_matches_invariant (e : ECSEntity) :
    ∀ (adds : List ECSEntity) (s : ECSSystem),
      (adds.foldl (fun s a => s.register_entity a) s).matches_entity e =
        s.matches_entity e := by
  intro adds
  induction adds with
  | nil => intro s; rfl
  | cons a adds ih =>
    intro s
    simp only [List.foldl_cons]
    rw [ih, register_matches_invariant]

theorem regfold_mem (e : ECSEntity) :
    ∀ (adds : List ECSEntity) (s : ECSSystem),
      e ∈ adds → s.matches_entity e = true →
      e.id ∈ (adds.foldl (fun s a => s.register_entity a) s).entities := by
  intro adds
  induction adds with
  | nil => intro s h _; simp at h
  | cons a adds ih =>
    intro s hmem hmatch
    simp only [List.foldl_cons]
    rcases List.mem_cons.mp hmem with h | h
    · subst h
      exact regfold_mem_preserve e.id adds _ (register_mem_self s e hmatch)
    · exact ih _ h (by rw [register_matches_invariant]; exact hmatch)

theorem foldl_map_get {α β : Type} (f : β → α → α) :
    ∀ (l : List β) (ss : List α) (i : Nat),
      (l.foldl (fun ss b => ss.map (fun s => f b s)) ss).get? i =
        (ss.get? i).map (fun s => l.foldl (fun s b => f b s) s) := by
  intro l
  induction l with
  | nil =>
    intro ss i
    simp only [List.foldl_nil]
    cases h : ss.get? i <;> rfl
  | cons b l ih =>
    intro ss i
    simp only [List.foldl_cons]
    rw [ih, List.get?_map]
    cases h : ss.get? i <;> rfl

theorem foldl_opt_map {α β : Type} (f : β → α → α) :
    ∀ (l : List β) (og : Option α),
      l.foldl (fun og b => og.map (fun g => f b g)) og =
        og.map (fun g => l.foldl (fun g b => f b g) g) := by
  intro l
  induction l with
  | nil => intro og; cases og <;> simp
  | cons b l ih =>
    intro og
    simp only [List.foldl_cons]
    rw [ih]
    cases og <;> simp

theorem grid_add_isSome_preserve (g : SpatialGrid) (id : EntityId)
    (pos : Position) (x : EntityId)
    (h : (AList.lookup x g._entity_positions).isSome) :
    (AList.lookup x (g.add_entity id pos)._entity_positions).isSome := by
  unfold SpatialGrid.add_entity
  by_cases hx : id = x
  · subst hx
    simp [AList.lookup_insert_self]
  · simpa [AList.lookup_insert_ne _ _ _ _ hx] using h

theorem gridaddfold_isSome_preserve (x : EntityId) :
    ∀ (adds : List ECSEntity) (g : SpatialGrid),
      (AList.lookup x g._entity_positions).isSome →
      (AList.lookup x
        ((adds.foldl (fun g a => g.add_entity a.id a.position)
          g))._entity_positions).isSome := by
  intro adds
  induction adds with
  | nil => intro g h; exact h
  | cons a adds ih =>
    intro g h
    simp only [List.foldl_cons]
    exact ih _ (grid_add_isSome_preserve g a.id a.position x h)

theorem gridaddfold_mem (e : ECSEntity) :
    ∀ (adds : List ECSEntity) (g : SpatialGrid), e ∈ adds →
      (AList.lookup e.id
        ((adds.foldl (fun g a => g.add_entity a.id a.position)
          g))._entity_positions).isSome := by
  intro adds
  induction adds with
  | nil => intro g h; simp at h
  | cons a adds ih =>
    intro g hmem
    simp only [List.foldl_cons]
    rcases List.mem_cons.mp hmem with h | h
    · subst h
      exact gridaddfold_isSome_preserve e.id adds _
        (by unfold SpatialGrid.add_entity; simp [AList.lookup_insert_self])
    · exact ih _ h

theorem grid_remove_lookup_ne (g : SpatialGrid) (id x : EntityId)
    (hne : x ≠ id) :
    AList.lookup x (g.remove_entity id none)._entity_positions =
      AList.lookup x g._entity_positions := by
  unfold SpatialGrid.remove_entity
  by_cases hg : (AList.lookup id g._entity_positions).isNone
  · rw [if_pos hg]
  · rw [if_neg hg]
    exact AList.lookup_erase_ne id x _ (fun h => hne h.symm)

theorem remfold_systems_mem (x : EntityId) :
    ∀ (rems : List EntityId) (w : World) (i : Nat) (s0 : ECSSystem),
      x ∉ rems → w.systems.get? i = some s0 → x ∈ s0.entities →
      ∃ s1, (rems.foldl World._remove_entity_immediate w).systems.get? i =
          some s1 ∧ x ∈ s1.entities := by
  intro rems
  induction rems with
  | nil => intro w i s0 _ h0 hx; exact ⟨s0, h0, hx⟩
  | cons r rs ih =>
    intro w i s0 hnx h0 hx
    have hner : x ≠ r := fun h => hnx (h ▸ List.mem_cons_self _ _)
    have hnx' : x ∉ rs := fun h => hnx (List.mem_cons_of_mem _ h)
    simp only [List.foldl_cons]
    unfold World._remove_entity_immediate
    by_cases hg : (AList.lookup r w.entities).isNone
    · rw [if_pos hg]
      exact ih w i s0 hnx' h0 hx
    · rw [if_neg hg]
      refine ih _ i (s0.unregister_entity r) hnx' ?_
        (unregister_mem_preserve s0 r x hner hx)
      show (w.systems.map (fun s => s.unregister_entity r)).get? i = _
      rw [List.get?_map, h0]
      rfl

theorem remfold_grid_isSome (x : EntityId) :
    ∀ (rems : List EntityId) (w : World) (g : SpatialGrid),
      x ∉ rems → w._spatial_grid = some g →
      (AList.lookup x g._entity_positions).isSome →
      ∃ g', (rems.foldl World._remove_entity_immediate w)._spatial_grid =
          some g' ∧ (AList.lookup x g'._entity_positions).isSome := by
  intro rems
  induction rems with
  | nil => intro w g _ hg hx; exact ⟨g, hg, hx⟩
  | cons r rs ih =>
    intro w g hnx hg hx
    have hner : x ≠ r := fun h => hnx (h ▸ List.mem_cons_self _ _)
    have hnx' : x ∉ rs := fun h => hnx (List.mem_cons_of_mem _ h)
    simp only [List.foldl_cons]
    unfold World._remove_entity_immediate
    by_cases hguard : (AList.lookup r w.entities).isNone
    · rw [if_pos hguard]
      exact ih w g hnx' hg hx
    · rw [if_neg hguard]
      refine ih _ (g.remove_entity r none) hnx' ?_ ?_
      · show (w._spatial_grid.map (fun g => g.remove_entity r none)) = _
        rw [hg]
        rfl
      · rw [grid_remove_lookup_ne g r x hner]
        exact hx

/-- C1: take a `World.update(dt)` call from an idle state (flag clear, empty
pending buffers, the dict's unique keys), whose system pass issues the calls
`acts`; let `e` be an entity queued by `add_entity` during the pass (the only
queued add with its id, fresh, and not also queued for removal) and `rid` an
id queued by `remove_entity`.  Then during the pass nothing structural
changes — `e` is invisible to `get_entity`, `rid` still resolves as before —
while the buffers hold exactly the queued changes; reconciliation applies
every queued add and then every queued removal to the table, exactly once
each, and clears both buffers; afterwards `e` is present, registered with
every system that matches it, and mirrored into the spatial grid when one is
attached, while `rid` is gone. -/
theorem world_update_defers_and_reconciles
    (w : World) (acts : List WorldAction) (e : ECSEntity) (rid : EntityId)
    (hproc : w._is_processing = false)
    (hpa : w._entities_pending_add = [])
    (hpr : w._entity_ids_pending_removal = [])
    (hkeys : (w.entities.map Prod.fst).Nodup)
    (hadd : WorldAction.addE e ∈ acts)
    (hlast : (WorldAction.queuedAdds acts).filter (fun a => a.id == e.id) =
      [e])
    (hfresh : w.get_entity e.id = none)
    (hnorem : e.id ∉ WorldAction.queuedRemovals acts)
    (hrem : WorldAction.removeE rid ∈ acts) :
    (w.processingPass acts).entities = w.entities
    ∧ (w.processingPass acts).systems = w.systems
    ∧ (w.processingPass acts).get_entity e.id = none
    ∧ (w.processingPass acts).get_entity rid = w.get_entity rid
    ∧ (w.processingPass acts)._entities_pending_add =
        WorldAction.queuedAdds acts
    ∧ (w.processingPass acts)._entity_ids_pending_removal =
        WorldAction.queuedRemovals acts
    ∧ (w.update acts).entities =
        (WorldAction.queuedRemovals acts).foldl
          (fun t id => AList.erase id t)
          ((WorldAction.queuedAdds acts).foldl
            (fun t a => AList.insert a.id a t) w.entities)
    ∧ (w.update acts)._entities_pending_add = []
    ∧ (w.update acts)._entity_ids_pending_removal = []
    ∧ (w.update acts).get_entity e.id = some e
    ∧ (∀ i s0 s1, w.systems.get? i = some s0 →
        (w.update acts).systems.get? i = some s1 →
        s0.matches_entity e = true → e.id ∈ s1.entities)
    ∧ (∀ g g', w._spatial_grid = some g →
        (w.update acts)._spatial_grid = some g' →
        (AList.lookup e.id g'._entity_positions).isSome = true)
    ∧ (w.update acts).get_entity rid = none := by
  have hmid : w.processingPass acts =
      { w with _is_processing := true,
               _entities_pending_add := WorldAction.queuedAdds acts,
               _entity_ids_pending_removal :=
                 WorldAction.queuedRemovals acts } := by
    unfold World.processingPass
    rw [processing_fold_fields acts { w with _is_processing := true } rfl]
    simp [hpa, hpr, WorldAction.queuedRemovals]
  have hupd : w.update acts = World._process_pending_entity_changes
      { w with _entities_pending_add := WorldAction.queuedAdds acts,
               _entity_ids_pending_removal := WorldAction.queuedRemovals acts,
               _is_processing := false } := by
    unfold World.update
    rw [hmid]
  have hw3 : w.update acts =
      { (WorldAction.queuedRemovals acts).foldl World._remove_entity_immediate
          { w with
            entities := (WorldAction.queuedAdds acts).foldl
              (fun t a => AList.insert a.id a t) w.entities,
            systems := (WorldAction.queuedAdds acts).foldl
              (fun ss a => ss.map (fun s => s.register_entity a)) w.systems,
            _spatial_grid := (WorldAction.queuedAdds acts).foldl
              (fun og a => og.map (fun g => g.add_entity a.id a.position))
              w._spatial_grid,
            _entities_pending_add := [],
            _entity_ids_pending_removal := WorldAction.queuedRemovals acts,
            _is_processing := false }
        with _entity_ids_pending_removal := [] } := by
    rw [hupd]
    unfold World._process_pending_entity_changes
    simp [addfold_fields]
  refine ⟨by rw [hmid], by rw [hmid], ?_, ?_, by rw [hmid],
    by rw [hmid], ?_, ?_, ?_, ?_, ?_, ?_, ?_⟩
  · show AList.lookup e.id (w.processingPass acts).entities = none
    rw [hmid]
    exact hfresh
  · show AList.lookup rid (w.processingPass acts).entities =
      AList.lookup rid w.entities
    rw [hmid]
  · rw [hw3]
    show ((WorldAction.queuedRemovals acts).foldl
        World._remove_entity_immediate _).entities = _
    rw [remfold_entities]
  · rw [hw3]
    show ((WorldAction.queuedRemovals acts).foldl
        World._remove_entity_immediate _)._entities_pending_add = _
    rw [remfold_pending_add]
  · rw [hw3]
  · show AList.lookup e.id (w.update acts).entities = some e
    rw [hw3]
    show AList.lookup e.id ((WorldAction.queuedRemovals acts).foldl
        World._remove_entity_immediate _).entities = some e
    rw [remfold_entities, lookup_erasefold_of_not_mem e.id _ _ hnorem,
      lookup_insfold_last e _ _ hlast]
  · intro i s0 s1 h0 h1 hmatch
    have hmem0 : e.id ∈ ((WorldAction.queuedAdds acts).foldl
        (fun s a => s.register_entity a) s0).entities :=
      regfold_mem e _ s0 (mem_queuedAdds hadd) hmatch
    have hget : ((WorldAction.queuedAdds acts).foldl
        (fun ss a => ss.map (fun s => s.register_entity a))
        w.systems).get? i =
          some ((WorldAction.queuedAdds acts).foldl
            (fun s a => s.register_entity a) s0) := by
      rw [foldl_map_get (fun a s => s.register_entity a)
        (WorldAction.queuedAdds acts) w.systems i, h0]
      rfl
    obtain ⟨s1', hs1', hmem1⟩ := remfold_systems_mem e.id
      (WorldAction.queuedRemovals acts)
      { w with
        entities := (WorldAction.queuedAdds acts).foldl
          (fun t a => AList.insert a.id a t) w.entities,
        systems := (WorldAction.queuedAdds acts).foldl
          (fun ss a => ss.map (fun s => s.register_entity a)) w.systems,
        _spatial_grid := (WorldAction.queuedAdds acts).foldl
          (fun og a => og.map (fun g => g.add_entity a.id a.position))
          w._spatial_grid,
        _entities_pending_add := [],
        _entity_ids_pending_removal := WorldAction.queuedRemovals acts,
        _is_processing := false }
      i _ hnorem hget hmem0
    rw [hw3] at h1
    have : some s1 = some s1' := by rw [← h1, ← hs1']
    cases this
    exact hmem1
  · intro g g' hg hg'
    have hgmid : ((WorldAction.queuedAdds acts).foldl
        (fun og a => og.map (fun g => g.add_entity a.id a.position))
        w._spatial_grid) = some ((WorldAction.queuedAdds acts).foldl
          (fun g a => g.add_entity a.id a.position) g) := by
      rw [foldl_opt_map (fun a g => g.add_entity a.id a.position)
        (WorldAction.queuedAdds acts) w._spatial_grid, hg]
      rfl
    have hmem0 : (AList.lookup e.id ((WorldAction.queuedAdds acts).foldl
        (fun g a => g.add_entity a.id a.position) g)._entity_positions).isSome :=
      gridaddfold_mem e _ g (mem_queuedAdds hadd)
    obtain ⟨g1', hg1', hmem1⟩ := remfold_grid_isSome e.id
      (WorldAction.queuedRemovals acts)
      { w with
        entities := (WorldAction.queuedAdds acts).foldl
          (fun t a => AList.insert a.id a t) w.entities,
        systems := (WorldAction.queuedAdds acts).foldl
          (fun ss a => ss.map (fun s => s.register_entity a)) w.systems,
        _spatial_grid := (WorldAction.queuedAdds acts).foldl
          (fun og a => og.map (fun g => g.add_entity a.id a.position))
          w._spatial_grid,
        _entities_pending_add := [],
        _entity_ids_pending_removal := WorldAction.queuedRemovals acts,
        _is_processing := false }
      _ hnorem hgmid hmem0
    rw [hw3] at hg'
    have : some g' = some g1' := by rw [← hg', ← hg1']
    cases this
    exact hmem1
  · show AList.lookup rid (w.update acts).entities = none
    rw [hw3]
    show AList.lookup rid ((WorldAction.queuedRemovals acts).foldl
        World._remove_entity_immediate _).entities = none
    rw [remfold_entities]
    exact lookup_erasefold_of_mem rid _ _ (mem_queuedRemovals hrem)
      (insfold_keys_nodup _ _ hkeys)

/-- Witness for C1: during the pass entity 2 (queued add) is invisible and
entity 1 (queued removal) still resolves; after `update` the adds-then-
removals reconciliation has run, entity 2 is present, registered, mirrored,
and entity 1 is gone. -/
theorem world_update_defers_and_reconciles_witness :
    (c1World.processingPass c1Acts).entities = c1World.entities
    ∧ (c1World.processingPass c1Acts).systems = c1World.systems
    ∧ (c1World.processingPass c1Acts).get_entity c1Entity2.id = none
    ∧ (c1World.processingPass c1Acts).get_entity 1 = c1World.get_entity 1
    ∧ (c1World.processingPass c1Acts)._entities_pending_add =
        WorldAction.queuedAdds c1Acts
    ∧ (c1World.processingPass c1Acts)._entity_ids_pending_removal =
        WorldAction.queuedRemovals c1Acts
    ∧ (c1World.update c1Acts).entities =
        (WorldAction.queuedRemovals c1Acts).foldl
          (fun t id => AList.erase id t)
          ((WorldAction.queuedAdds c1Acts).foldl
            (fun t a => AList.insert a.id a t) c1World.entities)
    ∧ (c1World.update c1Acts)._entities_pending_add = []
    ∧ (c1World.update c1Acts)._entity_ids_pending_removal = []
    ∧ (c1World.update c1Acts).get_entity c1Entity2.id = some c1Entity2
    ∧ (∀ i s0 s1, c1World.systems.get? i = some s0 →
        (c1World.update c1Acts).systems.get? i = some s1 →
        s0.matches_entity c1Entity2 = true → c1Entity2.id ∈ s1.entities)
    ∧ (∀ g g', c1World._spatial_grid = some g →
        (c1World.update c1Acts)._spatial_grid = some g' →
        (AList.lookup c1Entity2.id g'._entity_positions).isSome = true)
    ∧ (c1World.update c1Acts).get_entity 1 = none :=
  world_update_defers_and_reconciles c1World c1Acts c1Entity2 1
    (by decide) (by decide) (by decide) (by decide) (by decide) (by decide)
    (by decide) (by decide) (by decide)

end VirtualLife
